import Mathlib

/-!
Verification development for the Russian Bank (Solitario Russo) decision core.

The definitions below are shallow embeddings of the TypeScript sources:
* `src/packages/game-engine/src/constants.ts` and `validation.ts` (legality),
* the engine module providing `applyMove` / `drawFromHand` / `initializeGame`
  (the file imported as `./game.js` by the package, present in the repository
  as `src/unnamed/part_007`),
* `src/packages/game-engine/src/notation.ts`,
* the heuristic decision maker (`src/unnamed/part_001`),
* the trainer script `src/packages/ai-training/src/scripts/overnight-train.ts`.

JS arrays are Lean lists with index 0 at the head; `push`/`pop` act on the
end of the list (`l ++ [c]` / `l.dropLast`, `l.getLast?`), matching the
"last element is the top of the pile" convention of the sources.
JS `Set<string>` objects are modelled as lists of strings with membership.
JS numbers are modelled as `Nat`/`Int`/`Rat` as appropriate; the few places
where IEEE-754 rounding could differ from exact arithmetic are noted where
they occur and do not affect the claims settled here.
-/

namespace RussianBank

inductive Suit
  | hearts | diamonds | clubs | spades
deriving DecidableEq, Repr

inductive Player
  | player1 | player2
deriving DecidableEq, Repr

/-- `PileType` from `types.ts`; the current engine's pile-location type also
has the `drawn` kind used by `validation.ts`. -/
inductive PileType
  | reserve | waste | tableau | foundation | hand | drawn
deriving DecidableEq, Repr

/-- `Card` from `types.ts`: suit, rank (1..13, 1 = Ace), and which player's
deck the physical card came from. `rank` is a `Nat`; the TS `Rank` union
type confines it to 1..13. -/
structure Card where
  suit : Suit
  rank : Nat
  deck : Player
deriving DecidableEq, Repr

/-- `PileLocation` from `types.ts`. `owner` is absent for foundations and
`index` is only used by tableau (0-3) and foundation (0-7) locations. -/
structure PileLocation where
  type : PileType
  owner : Option Player := none
  index : Option Nat := none
deriving DecidableEq, Repr

/-- `Move` from `types.ts`. The TS fields `from`/`to` are named
`fromLoc`/`toLoc` here because `from` is a Lean keyword. -/
structure Move where
  fromLoc : PileLocation
  toLoc : PileLocation
  card : Card
deriving DecidableEq, Repr

inductive TurnPhase
  | playing | mustDraw | ended
deriving DecidableEq, Repr

/-- `PlayerState` from `types.ts`. `drawnCard` is the optional field used by
`validation.ts` (the immediate-play rule). -/
structure PlayerState where
  reserve : List Card
  waste : List Card
  tableau : List (List Card)
  hand : List Card
  drawnCard : Option Card := none
deriving DecidableEq, Repr

/-- `GameState` from `types.ts`. The `seed` field is the one read by the
decision maker (`state.seed` in the heuristic AI); per spec §3 it is
"preserved for reproducibility", and it is carried unchanged through
cloning below. -/
structure GameState where
  player1 : PlayerState
  player2 : PlayerState
  foundations : List (List Card)
  currentTurn : Player
  turnPhase : TurnPhase
  moveCount : Nat
  winner : Option Player := none
  seed : Nat := 0
deriving DecidableEq, Repr

/-- `MoveResult` from `types.ts`: `{valid, reason?, newState?, turnEnded?}`. -/
structure MoveResult where
  valid : Bool
  reason : Option String := none
  newState : Option GameState := none
  turnEnded : Option Bool := none
deriving DecidableEq, Repr

/-! ### constants.ts -/

def SUITS : List Suit := [.hearts, .diamonds, .clubs, .spades]

def RESERVE_SIZE : Nat := 12

def TABLEAU_COUNT : Nat := 4

def MAX_MOVES : Nat := 1000

/-- `getFoundationSuit` from `constants.ts`:
`FOUNDATION_SUITS[foundationIndex % 4] ?? 'hearts'`. -/
def getFoundationSuit (foundationIndex : Nat) : Suit :=
  (SUITS.get? (foundationIndex % 4)).getD .hearts

/-- `SUIT_COLORS` / `getCardColor` from `constants.ts`. -/
def getCardColor (s : Suit) : Bool :=
  match s with
  | .hearts => true
  | .diamonds => true
  | .clubs => false
  | .spades => false

/-- `isOppositeColor` from `constants.ts`. -/
def isOppositeColor (s1 s2 : Suit) : Bool :=
  getCardColor s1 != getCardColor s2

/-! ### validation.ts -/

/-- `getTopCard`: the last array element, or `undefined`. -/
def getTopCard (pile : List Card) : Option Card :=
  pile.getLast?

/-- `canPlayOnFoundation (card, pile, foundationIndex)` from `validation.ts`. -/
def canPlayOnFoundation (card : Card) (pile : List Card) (foundationIndex : Nat) : Bool :=
  let requiredSuit := getFoundationSuit foundationIndex
  if card.suit != requiredSuit then
    false
  else if pile.isEmpty then
    card.rank == 1
  else
    match getTopCard pile with
    | none => card.rank == 1
    | some topCard => card.suit == topCard.suit && card.rank == topCard.rank + 1

/-- `canPlayOnTableau` from `validation.ts` (also exported as
`canPlayOnOwnTableau` and `canPlayOnOpponentTableau`). -/
def canPlayOnTableau (card : Card) (pile : List Card) : Bool :=
  if pile.isEmpty then
    true
  else
    match getTopCard pile with
    | none => true
    | some topCard =>
        isOppositeColor card.suit topCard.suit && card.rank + 1 == topCard.rank

/-- `canPlayOnOpponentPile` from `validation.ts`: attack rule, same suit and
rank exactly one apart, never on an empty pile. -/
def canPlayOnOpponentPile (card : Card) (pile : List Card) : Bool :=
  if pile.isEmpty then
    false
  else
    match getTopCard pile with
    | none => false
    | some topCard =>
        card.suit == topCard.suit &&
          (card.rank == topCard.rank + 1 || card.rank + 1 == topCard.rank)

def getPlayerState (state : GameState) (player : Player) : PlayerState :=
  match player with
  | .player1 => state.player1
  | .player2 => state.player2

def getOpponent (player : Player) : Player :=
  match player with
  | .player1 => .player2
  | .player2 => .player1

/-- The body of the `tryAddMove` closure in `getValidMoves`
(`validation.ts` lines 133-198): all destinations for `card` played from
`fromLoc`, in source order (foundations 0..7, own tableau 0..3 skipping the
source pile, opponent tableau 0..3 skipping the source pile, opponent
waste, opponent reserve). -/
def tryAddMove (state : GameState) (fromLoc : PileLocation) (card : Option Card) : List Move :=
  match card with
  | none => []
  | some card =>
      let currentPlayer := state.currentTurn
      let opponent := getOpponent currentPlayer
      let playerState := getPlayerState state currentPlayer
      let opponentState := getPlayerState state opponent
      let foundationMoves :=
        (List.range state.foundations.length).filterMap fun i =>
          match state.foundations.get? i with
          | some pile =>
              if canPlayOnFoundation card pile i then
                some { fromLoc := fromLoc, toLoc := { type := .foundation, index := some i }, card := card }
              else
                none
          | none => none
      let ownTableauMoves :=
        (List.range playerState.tableau.length).filterMap fun i =>
          if fromLoc.type == .tableau && fromLoc.owner == some currentPlayer
              && fromLoc.index == some i then
            none
          else
            match playerState.tableau.get? i with
            | some pile =>
                if canPlayOnTableau card pile then
                  some { fromLoc := fromLoc,
                         toLoc := { type := .tableau, owner := some currentPlayer, index := some i },
                         card := card }
                else
                  none
            | none => none
      let oppTableauMoves :=
        (List.range opponentState.tableau.length).filterMap fun i =>
          if fromLoc.type == .tableau && fromLoc.owner == some opponent
              && fromLoc.index == some i then
            none
          else
            match opponentState.tableau.get? i with
            | some pile =>
                if canPlayOnTableau card pile then
                  some { fromLoc := fromLoc,
                         toLoc := { type := .tableau, owner := some opponent, index := some i },
                         card := card }
                else
                  none
            | none => none
      let wasteAttack :=
        if canPlayOnOpponentPile card opponentState.waste then
          [{ fromLoc := fromLoc, toLoc := { type := .waste, owner := some opponent }, card := card }]
        else
          []
      let reserveAttack :=
        if canPlayOnOpponentPile card opponentState.reserve then
          [{ fromLoc := fromLoc, toLoc := { type := .reserve, owner := some opponent }, card := card }]
        else
          []
      foundationMoves ++ ownTableauMoves ++ oppTableauMoves ++ wasteAttack ++ reserveAttack

/-- `getValidMoves` from `validation.ts`: if the current player holds a
drawn card only that card may be played; otherwise sources are the top of
the own reserve and the top of every tableau pile of both players.
`turnPhase` is never consulted. -/
def getValidMoves (state : GameState) : List Move :=
  let currentPlayer := state.currentTurn
  let opponent := getOpponent currentPlayer
  let playerState := getPlayerState state currentPlayer
  let opponentState := getPlayerState state opponent
  match playerState.drawnCard with
  | some drawnCard =>
      tryAddMove state { type := .drawn, owner := some currentPlayer } (some drawnCard)
  | none =>
      let reserveMoves :=
        match getTopCard playerState.reserve with
        | some reserveCard =>
            tryAddMove state { type := .reserve, owner := some currentPlayer } (some reserveCard)
        | none => []
      let ownTableauSources :=
        (List.range playerState.tableau.length).flatMap fun i =>
          match playerState.tableau.get? i with
          | some pile =>
              match getTopCard pile with
              | some tableauCard =>
                  tryAddMove state { type := .tableau, owner := some currentPlayer, index := some i }
                    (some tableauCard)
              | none => []
          | none => []
      let oppTableauSources :=
        (List.range opponentState.tableau.length).flatMap fun i =>
          match opponentState.tableau.get? i with
          | some pile =>
              match getTopCard pile with
              | some tableauCard =>
                  tryAddMove state { type := .tableau, owner := some opponent, index := some i }
                    (some tableauCard)
              | none => []
          | none => []
      reserveMoves ++ ownTableauSources ++ oppTableauSources

/-- The per-move comparison used by `isValidMove` (`validation.ts`
lines 336-346): field-by-field equality of from, to, and card. -/
def moveMatches (m move : Move) : Bool :=
  m.fromLoc.type == move.fromLoc.type &&
  m.fromLoc.owner == move.fromLoc.owner &&
  m.fromLoc.index == move.fromLoc.index &&
  m.toLoc.type == move.toLoc.type &&
  m.toLoc.owner == move.toLoc.owner &&
  m.toLoc.index == move.toLoc.index &&
  m.card.suit == move.card.suit &&
  m.card.rank == move.card.rank &&
  m.card.deck == move.card.deck

/-- `isValidMove` from `validation.ts`. -/
def isValidMove (state : GameState) (move : Move) : MoveResult :=
  if (getValidMoves state).any (fun m => moveMatches m move) then
    { valid := true }
  else
    { valid := false, reason := some ("Invalid move") }

/-! ### deck.ts -/

/-- `createDeck` from `deck.ts`: the 52 cards of one deck, suits in `SUITS`
order, ranks 1..13 ascending within each suit. -/
def createDeck (owner : Player) : List Card :=
  SUITS.flatMap fun suit => (List.range 13).map fun r => { suit := suit, rank := r + 1, deck := owner }

/-! ### the engine module (src/unnamed/part_007) -/

/-- `clonePlayerState`: the object literal copies reserve, waste, tableau and
hand only, so any `drawnCard` value is dropped by cloning (the field was
added to the type after this file was written). -/
def clonePlayerState (state : PlayerState) : PlayerState :=
  { reserve := state.reserve
    waste := state.waste
    tableau := state.tableau
    hand := state.hand
    drawnCard := none }

/-- `cloneState`. The `seed` field (present on the package's current
`GameState` and read by the decision maker) is carried unchanged. -/
def cloneState (state : GameState) : GameState :=
  { player1 := clonePlayerState state.player1
    player2 := clonePlayerState state.player2
    foundations := state.foundations
    currentTurn := state.currentTurn
    turnPhase := state.turnPhase
    moveCount := state.moveCount
    winner := state.winner
    seed := state.seed }

/-- `dealPlayerCards`: 12 cards to reserve, 4 one-card tableau piles, the
rest to hand, waste empty. -/
def dealPlayerCards (deck : List Card) : PlayerState :=
  { reserve := deck.take RESERVE_SIZE
    waste := []
    tableau := (List.range TABLEAU_COUNT).map fun i => (deck.drop (RESERVE_SIZE + i)).take 1
    hand := deck.drop (RESERVE_SIZE + TABLEAU_COUNT)
    drawnCard := none }

def playerAllEmpty (ps : PlayerState) : Bool :=
  ps.reserve.length == 0 && ps.hand.length == 0 && ps.waste.length == 0

/-- `checkWinCondition`: the first of player1, player2 whose reserve, hand
and waste are all empty. -/
def checkWinCondition (state : GameState) : Option Player :=
  if playerAllEmpty (getPlayerState state .player1) then
    some .player1
  else if playerAllEmpty (getPlayerState state .player2) then
    some .player2
  else
    none

/-- Writes `ps` back as the record of `player` in `state`. Models the
aliasing in the engine, where `getPlayerState` returns a live reference. -/
def setPlayerState (state : GameState) (player : Player) (ps : PlayerState) : GameState :=
  match player with
  | .player1 => { state with player1 := ps }
  | .player2 => { state with player2 := ps }

/-- The source-removal switch of `applyMove` (part_007 lines 142-156):
pops from the current player's reserve, waste, or tableau pile at
`move.from.index ?? 0`.  Note the tableau case reads
`playerState.tableau[...]`, i.e. the *current player's* pile, regardless of
`move.from.owner`; and there is no case for the `drawn` source.
Returns the removed card (if any) and the updated current-player record. -/
def removeFromSource (playerState : PlayerState) (move : Move) : Option Card × PlayerState :=
  match move.fromLoc.type with
  | .reserve => (playerState.reserve.getLast?, { playerState with reserve := playerState.reserve.dropLast })
  | .waste => (playerState.waste.getLast?, { playerState with waste := playerState.waste.dropLast })
  | .tableau =>
      let idx := move.fromLoc.index.getD 0
      match playerState.tableau.get? idx with
      | some pile =>
          (pile.getLast?, { playerState with tableau := playerState.tableau.set idx pile.dropLast })
      | none => (none, playerState)
  | _ => (none, playerState)

/-- `applyMove` from part_007 lines 128-201. The destination switch only
handles `foundation` and `tableau`; for any other destination (in
particular the attack destinations `waste` and `reserve` of the opponent
that `getValidMoves` enumerates) the removed card is not added anywhere. -/
def applyMove (state : GameState) (move : Move) : MoveResult :=
  let validation := isValidMove state move
  if !validation.valid then
    validation
  else
    let newState := cloneState state
    let currentPlayer := newState.currentTurn
    let playerState := getPlayerState newState currentPlayer
    match removeFromSource playerState move with
    | (none, _) => { valid := false, reason := some ("No card at source") }
    | (some removedCard, playerAfter) =>
        let afterRemove := setPlayerState newState currentPlayer playerAfter
        let afterAdd :=
          match move.toLoc.type with
          | .foundation =>
              let idx := move.toLoc.index.getD 0
              match afterRemove.foundations.get? idx with
              | some pile =>
                  { afterRemove with foundations := afterRemove.foundations.set idx (pile ++ [removedCard]) }
              | none => afterRemove
          | .tableau =>
              let owner :=
                if move.toLoc.owner == some currentPlayer then currentPlayer
                else getOpponent currentPlayer
              let targetState := getPlayerState afterRemove owner
              let idx := move.toLoc.index.getD 0
              match targetState.tableau.get? idx with
              | some pile =>
                  setPlayerState afterRemove owner
                    { targetState with tableau := targetState.tableau.set idx (pile ++ [removedCard]) }
              | none => afterRemove
          | _ => afterRemove
        let counted := { afterAdd with moveCount := afterAdd.moveCount + 1 }
        let afterWin :=
          match checkWinCondition counted with
          | some winner => { counted with winner := some winner, turnPhase := .ended }
          | none => counted
        let final :=
          if decide (MAX_MOVES ≤ afterWin.moveCount) then
            { afterWin with turnPhase := .ended }
          else
            afterWin
        { valid := true, newState := some final, turnEnded := some false }

/-- The call `canPlayOnFoundation(card, pile)` at part_007 line 276 omits
the `foundationIndex` argument; in JS, `getFoundationSuit(undefined)`
evaluates `FOUNDATION_SUITS[NaN] ?? 'hearts'`, i.e. the required suit is
always `hearts` on this path. -/
def canPlayOnFoundationNoIndex (card : Card) (pile : List Card) : Bool :=
  if card.suit != .hearts then
    false
  else if pile.isEmpty then
    card.rank == 1
  else
    match getTopCard pile with
    | none => card.rank == 1
    | some topCard => card.suit == topCard.suit && card.rank == topCard.rank + 1

/-- `getMovesForCard` from part_007 lines 266-310: destinations checked are
foundations (with the index-less foundation test above), own tableau piles,
and opponent tableau piles.  Attacks on the opponent's waste or reserve are
not checked on this path. -/
def getMovesForCard (state : GameState) (card : Card) (fromLoc : PileLocation) : List Move :=
  let currentPlayer := state.currentTurn
  let opponent := getOpponent currentPlayer
  let playerState := getPlayerState state currentPlayer
  let opponentState := getPlayerState state opponent
  let foundationMoves :=
    (List.range state.foundations.length).filterMap fun i =>
      match state.foundations.get? i with
      | some pile =>
          if canPlayOnFoundationNoIndex card pile then
            some { fromLoc := fromLoc, toLoc := { type := .foundation, index := some i }, card := card }
          else
            none
      | none => none
  let ownTableauMoves :=
    (List.range playerState.tableau.length).filterMap fun i =>
      match playerState.tableau.get? i with
      | some pile =>
          if canPlayOnTableau card pile then
            some { fromLoc := fromLoc,
                   toLoc := { type := .tableau, owner := some currentPlayer, index := some i },
                   card := card }
          else
            none
      | none => none
  let oppTableauMoves :=
    (List.range opponentState.tableau.length).filterMap fun i =>
      match opponentState.tableau.get? i with
      | some pile =>
          if canPlayOnTableau card pile then
            some { fromLoc := fromLoc,
                   toLoc := { type := .tableau, owner := some opponent, index := some i },
                   card := card }
          else
            none
      | none => none
  foundationMoves ++ ownTableauMoves ++ oppTableauMoves

/-- `drawFromHand` from part_007 lines 207-261. -/
def drawFromHand (state : GameState) : MoveResult :=
  let newState := cloneState state
  let ps0 := getPlayerState newState newState.currentTurn
  let recycled : Option PlayerState :=
    if ps0.hand.length == 0 then
      if ps0.waste.length == 0 then
        none
      else
        some { ps0 with hand := ps0.waste.reverse, waste := [] }
    else
      some ps0
  match recycled with
  | none => { valid := false, reason := some ("No cards in hand or waste") }
  | some ps1 =>
      match ps1.hand.getLast? with
      | none => { valid := false, reason := some ("No card to draw") }
      | some drawnCard =>
          let ps2 := { ps1 with hand := ps1.hand.dropLast, waste := ps1.waste ++ [drawnCard] }
          let st1 := setPlayerState newState newState.currentTurn ps2
          let st2 := { st1 with moveCount := st1.moveCount + 1 }
          let movesWithDrawnCard :=
            getMovesForCard st2 drawnCard { type := .waste, owner := some st2.currentTurn }
          let endedTurn := movesWithDrawnCard.isEmpty
          let st3 :=
            if endedTurn then
              { st2 with currentTurn := getOpponent state.currentTurn, turnPhase := .playing }
            else
              st2
          let (st4, turnEnded2) :=
            match checkWinCondition st3 with
            | some winner => ({ st3 with winner := some winner, turnPhase := .ended }, false)
            | none => (st3, endedTurn)
          let st5 :=
            if decide (MAX_MOVES ≤ st4.moveCount) then
              { st4 with turnPhase := .ended }
            else
              st4
          { valid := true, newState := some st5, turnEnded := some turnEnded2 }

/-! ### Pile accounting used by the whole-state invariants -/

/-- All pile contents of a state, in a fixed order: for each player the
reserve, waste, hand and four tableau piles, then the eight foundations.
`drawnCard` is not a pile (in the current engine it aliases the top of the
waste), so it is not counted. -/
def allPiles (state : GameState) : List (List Card) :=
  [state.player1.reserve, state.player1.waste, state.player1.hand] ++
    state.player1.tableau ++
    [state.player2.reserve, state.player2.waste, state.player2.hand] ++
    state.player2.tableau ++
    state.foundations

/-- Total number of cards across every pile of the state. -/
def totalCards (state : GameState) : Nat :=
  ((allPiles state).map List.length).sum

/-! ### notation.ts

Notation strings are modelled as `List Char`.  The `*ToNotation` /
`notationTo*` functions of the source are named `*ToCode` / `codeTo*` here.
-/

/-- `SUIT_CHARS` from `notation.ts`. -/
def suitChar (s : Suit) : Char :=
  match s with
  | .hearts => 'H'
  | .diamonds => 'D'
  | .clubs => 'C'
  | .spades => 'S'

/-- `CHAR_TO_SUIT` from `notation.ts`. -/
def charToSuit (c : Char) : Option Suit :=
  if c = 'H' then some .hearts
  else if c = 'D' then some .diamonds
  else if c = 'C' then some .clubs
  else if c = 'S' then some .spades
  else none

/-- `RANK_CHARS` from `notation.ts`.  The TS `Rank` type confines lookups to
1..13; the `'?'` default models the impossible out-of-range lookup. -/
def rankChar (r : Nat) : Char :=
  match r with
  | 1 => 'A'
  | 2 => '2'
  | 3 => '3'
  | 4 => '4'
  | 5 => '5'
  | 6 => '6'
  | 7 => '7'
  | 8 => '8'
  | 9 => '9'
  | 10 => 'T'
  | 11 => 'J'
  | 12 => 'Q'
  | 13 => 'K'
  | _ => '?'

/-- `CHAR_TO_RANK` from `notation.ts`. -/
def charToRank (c : Char) : Option Nat :=
  if c = 'A' then some 1
  else if c = '2' then some 2
  else if c = '3' then some 3
  else if c = '4' then some 4
  else if c = '5' then some 5
  else if c = '6' then some 6
  else if c = '7' then some 7
  else if c = '8' then some 8
  else if c = '9' then some 9
  else if c = 'T' then some 10
  else if c = 'J' then some 11
  else if c = 'Q' then some 12
  else if c = 'K' then some 13
  else none

def TABLEAU_INDEX_CHARS : List Char := ['a', 'b', 'c', 'd']

/-- `cardToNotation` in the source: rank char, suit char, deck digit. -/
def cardToCode (card : Card) : List Char :=
  [rankChar card.rank, suitChar card.suit, if card.deck = .player1 then '1' else '2']

/-- `notationToCard` in the source: reads the first three characters (extra
characters are ignored), `null` when shorter than three or any lookup
fails. -/
def codeToCard (l : List Char) : Option Card :=
  match l with
  | rc :: sc :: dc :: _ =>
      match charToRank rc, charToSuit sc with
      | some rank, some suit =>
          if dc = '1' then some { suit := suit, rank := rank, deck := .player1 }
          else if dc = '2' then some { suit := suit, rank := rank, deck := .player2 }
          else none
      | _, _ => none
  | _ => none

/-- Decimal digits of a natural number, as in the JS template `${n}`. -/
def natDigits (n : Nat) : List Char :=
  (Nat.repr n).data

/-- `pileToNotation` in the source. -/
def pileToCode (location : PileLocation) : List Char :=
  match location.type with
  | .reserve => ['R', if location.owner = some .player1 then '1' else '2']
  | .waste => ['W', if location.owner = some .player1 then '1' else '2']
  | .hand => ['H', if location.owner = some .player1 then '1' else '2']
  | .tableau =>
      let player : Char := if location.owner = some .player1 then '1' else '2'
      let index := (TABLEAU_INDEX_CHARS.get? (location.index.getD 0)).getD 'a'
      ['T', player, index]
  | .drawn => ['G', if location.owner = some .player1 then '1' else '2']
  | .foundation => 'F' :: natDigits (location.index.getD 0 + 1)

def digitVal (c : Char) : Option Nat :=
  if '0' ≤ c ∧ c ≤ '9' then some (c.toNat - '0'.toNat) else none

/-- The digit-prefix fragment of JS `parseInt(s, 10)` used by the source:
the leading run of decimal digits, `NaN` (`none`) when there is none. -/
def parseIntPrefix (l : List Char) : Option Nat :=
  match l with
  | [] => none
  | c :: cs =>
      match digitVal c with
      | none => none
      | some d =>
          some (cs.foldl (fun acc c' => match digitVal c' with
            | some d' => if acc.2 then (acc.1 * 10 + d', true) else acc
            | none => (acc.1, false)) (d, true)).1

/-- First index of `c` in `l`, or `none`: JS `Array.prototype.indexOf`
(`-1` mapped to `none`). -/
def indexOfChar (l : List Char) (c : Char) : Option Nat :=
  match l.findIdx? (fun x => x = c) with
  | some i => some i
  | none => none

/-- `notationToPile` in the source. -/
def codeToPile (l : List Char) : Option PileLocation :=
  match l with
  | t :: rest =>
      if rest.length = 0 then none
      else if t = 'R' then
        some { type := .reserve, owner := if rest = ['1'] then some .player1 else some .player2 }
      else if t = 'W' then
        some { type := .waste, owner := if rest = ['1'] then some .player1 else some .player2 }
      else if t = 'H' then
        some { type := .hand, owner := if rest = ['1'] then some .player1 else some .player2 }
      else if t = 'T' then
        match rest with
        | p :: ic :: _ =>
            let player : Player := if p = '1' then .player1 else .player2
            match indexOfChar TABLEAU_INDEX_CHARS ic with
            | some index => some { type := .tableau, owner := some player, index := some index }
            | none => none
        | _ => none
      else if t = 'G' then
        some { type := .drawn, owner := if rest = ['1'] then some .player1 else some .player2 }
      else if t = 'F' then
        match parseIntPrefix rest with
        | none => none
        | some v =>
            if v = 0 then none
            else if v - 1 > 7 then none
            else some { type := .foundation, index := some (v - 1) }
      else none
  | [] => none

/-- `moveToNotation` in the source: `<card>:<from>-<to>`. -/
def moveToCode (move : Move) : List Char :=
  cardToCode move.card ++ [':'] ++ pileToCode move.fromLoc ++ ['-'] ++ pileToCode move.toLoc

/-- JS `String.prototype.split` with a single-character separator. -/
def splitOnChar (sep : Char) : List Char → List (List Char)
  | [] => [[]]
  | c :: cs =>
      if c = sep then
        [] :: splitOnChar sep cs
      else
        match splitOnChar sep cs with
        | [] => [[c]]
        | p :: ps => (c :: p) :: ps

/-- `notationToMove` in the source: split on `:`, split the right part on
`-`, parse the three components. -/
def codeToMove (l : List Char) : Option Move :=
  match splitOnChar ':' l with
  | [cardPart, locPart] =>
      match splitOnChar '-' locPart with
      | [fromPart, toPart] =>
          match codeToCard cardPart, codeToPile fromPart, codeToPile toPart with
          | some card, some f, some t => some { fromLoc := f, toLoc := t, card := card }
          | _, _, _ => none
      | _ => none
  | _ => none

/-- The hypothesis of C10: the card has a valid rank (the TS `Rank` union),
and each location carries exactly the owner/index fields its kind requires,
with tableau indices 0-3 and foundation indices 0-7. -/
def wellFormedLoc (loc : PileLocation) : Bool :=
  match loc.type with
  | .foundation => loc.owner == none && (match loc.index with | some i => i < 8 | none => false)
  | .tableau => loc.owner.isSome && (match loc.index with | some i => i < 4 | none => false)
  | _ => loc.owner.isSome && loc.index == none

/-! ### ScoreWeights (heuristic AI, src/unnamed/part_001)

The weight schema of the decision maker.  Weight values are modelled as
rationals; every concrete weight in the sources is an integer, and the JS
arithmetic on them (sums, the score computations below) is exact at these
magnitudes.
-/

structure ScoreWeights where
  TO_FOUNDATION : ℚ
  ATTACK_RESERVE : ℚ
  ATTACK_WASTE : ℚ
  FROM_RESERVE : ℚ
  FROM_WASTE : ℚ
  FROM_TABLEAU : ℚ
  TO_OWN_TABLEAU : ℚ
  TO_OPPONENT_TABLEAU : ℚ
  EMPTIES_RESERVE : ℚ
  CREATES_EMPTY_TABLEAU : ℚ
  PLAYS_ACE : ℚ
  PLAYS_TWO : ℚ
  POINTLESS_TABLEAU_SHUFFLE : ℚ
  TABLEAU_MOVE_NO_BENEFIT : ℚ
  CREATES_USEFUL_EMPTY : ℚ
  DRAW_AVOIDANCE_EMPTY_BONUS : ℚ
  STACK_HEIGHT_BONUS : ℚ
  SPREAD_PENALTY : ℚ
deriving DecidableEq, Repr

/-- `DEFAULT_WEIGHTS` from the heuristic AI (the evolved v3 values). -/
def DEFAULT_WEIGHTS : ScoreWeights :=
  { TO_FOUNDATION := 56
    ATTACK_RESERVE := 63
    ATTACK_WASTE := 8
    FROM_RESERVE := 21
    FROM_WASTE := 24
    FROM_TABLEAU := 5
    TO_OWN_TABLEAU := 24
    TO_OPPONENT_TABLEAU := 24
    EMPTIES_RESERVE := 118
    CREATES_EMPTY_TABLEAU := -8
    PLAYS_ACE := 0
    PLAYS_TWO := 24
    POINTLESS_TABLEAU_SHUFFLE := -43
    TABLEAU_MOVE_NO_BENEFIT := -80
    CREATES_USEFUL_EMPTY := 54
    DRAW_AVOIDANCE_EMPTY_BONUS := 40
    STACK_HEIGHT_BONUS := 8
    SPREAD_PENALTY := -15 }

/-- The keys of the `ScoreWeights` record, for the trainer's
`Object.keys(weights)` iterations. -/
inductive WeightKey
  | TO_FOUNDATION | ATTACK_RESERVE | ATTACK_WASTE | FROM_RESERVE | FROM_WASTE
  | FROM_TABLEAU | TO_OWN_TABLEAU | TO_OPPONENT_TABLEAU | EMPTIES_RESERVE
  | CREATES_EMPTY_TABLEAU | PLAYS_ACE | PLAYS_TWO | POINTLESS_TABLEAU_SHUFFLE
  | TABLEAU_MOVE_NO_BENEFIT | CREATES_USEFUL_EMPTY | DRAW_AVOIDANCE_EMPTY_BONUS
  | STACK_HEIGHT_BONUS | SPREAD_PENALTY
deriving DecidableEq, Repr

/-- `Object.keys` order: the insertion order of the `ScoreWeights` literals
in the heuristic AI. -/
def scoreWeightsKeys : List WeightKey :=
  [.TO_FOUNDATION, .ATTACK_RESERVE, .ATTACK_WASTE, .FROM_RESERVE, .FROM_WASTE,
   .FROM_TABLEAU, .TO_OWN_TABLEAU, .TO_OPPONENT_TABLEAU, .EMPTIES_RESERVE,
   .CREATES_EMPTY_TABLEAU, .PLAYS_ACE, .PLAYS_TWO, .POINTLESS_TABLEAU_SHUFFLE,
   .TABLEAU_MOVE_NO_BENEFIT, .CREATES_USEFUL_EMPTY, .DRAW_AVOIDANCE_EMPTY_BONUS,
   .STACK_HEIGHT_BONUS, .SPREAD_PENALTY]

def getW (w : ScoreWeights) (k : WeightKey) : ℚ :=
  match k with
  | .TO_FOUNDATION => w.TO_FOUNDATION
  | .ATTACK_RESERVE => w.ATTACK_RESERVE
  | .ATTACK_WASTE => w.ATTACK_WASTE
  | .FROM_RESERVE => w.FROM_RESERVE
  | .FROM_WASTE => w.FROM_WASTE
  | .FROM_TABLEAU => w.FROM_TABLEAU
  | .TO_OWN_TABLEAU => w.TO_OWN_TABLEAU
  | .TO_OPPONENT_TABLEAU => w.TO_OPPONENT_TABLEAU
  | .EMPTIES_RESERVE => w.EMPTIES_RESERVE
  | .CREATES_EMPTY_TABLEAU => w.CREATES_EMPTY_TABLEAU
  | .PLAYS_ACE => w.PLAYS_ACE
  | .PLAYS_TWO => w.PLAYS_TWO
  | .POINTLESS_TABLEAU_SHUFFLE => w.POINTLESS_TABLEAU_SHUFFLE
  | .TABLEAU_MOVE_NO_BENEFIT => w.TABLEAU_MOVE_NO_BENEFIT
  | .CREATES_USEFUL_EMPTY => w.CREATES_USEFUL_EMPTY
  | .DRAW_AVOIDANCE_EMPTY_BONUS => w.DRAW_AVOIDANCE_EMPTY_BONUS
  | .STACK_HEIGHT_BONUS => w.STACK_HEIGHT_BONUS
  | .SPREAD_PENALTY => w.SPREAD_PENALTY

def setW (w : ScoreWeights) (k : WeightKey) (v : ℚ) : ScoreWeights :=
  match k with
  | .TO_FOUNDATION => { w with TO_FOUNDATION := v }
  | .ATTACK_RESERVE => { w with ATTACK_RESERVE := v }
  | .ATTACK_WASTE => { w with ATTACK_WASTE := v }
  | .FROM_RESERVE => { w with FROM_RESERVE := v }
  | .FROM_WASTE => { w with FROM_WASTE := v }
  | .FROM_TABLEAU => { w with FROM_TABLEAU := v }
  | .TO_OWN_TABLEAU => { w with TO_OWN_TABLEAU := v }
  | .TO_OPPONENT_TABLEAU => { w with TO_OPPONENT_TABLEAU := v }
  | .EMPTIES_RESERVE => { w with EMPTIES_RESERVE := v }
  | .CREATES_EMPTY_TABLEAU => { w with CREATES_EMPTY_TABLEAU := v }
  | .PLAYS_ACE => { w with PLAYS_ACE := v }
  | .PLAYS_TWO => { w with PLAYS_TWO := v }
  | .POINTLESS_TABLEAU_SHUFFLE => { w with POINTLESS_TABLEAU_SHUFFLE := v }
  | .TABLEAU_MOVE_NO_BENEFIT => { w with TABLEAU_MOVE_NO_BENEFIT := v }
  | .CREATES_USEFUL_EMPTY => { w with CREATES_USEFUL_EMPTY := v }
  | .DRAW_AVOIDANCE_EMPTY_BONUS => { w with DRAW_AVOIDANCE_EMPTY_BONUS := v }
  | .STACK_HEIGHT_BONUS => { w with STACK_HEIGHT_BONUS := v }
  | .SPREAD_PENALTY => { w with SPREAD_PENALTY := v }

/-! ### overnight-train.ts -/

/-- `WEIGHT_BOUNDS` from `overnight-train.ts` lines 93-109.  The literal
names only fifteen keys; `DRAW_AVOIDANCE_EMPTY_BONUS`, `STACK_HEIGHT_BONUS`
and `SPREAD_PENALTY` (present in the imported `ScoreWeights` schema) have
no entry, so a lookup at those keys yields `undefined` (`none`). -/
def WEIGHT_BOUNDS (k : WeightKey) : Option (ℚ × ℚ) :=
  match k with
  | .TO_FOUNDATION => some (10, 200)
  | .ATTACK_RESERVE => some (0, 150)
  | .ATTACK_WASTE => some (0, 100)
  | .FROM_RESERVE => some (10, 150)
  | .FROM_WASTE => some (5, 100)
  | .FROM_TABLEAU => some (0, 50)
  | .TO_OWN_TABLEAU => some (0, 50)
  | .TO_OPPONENT_TABLEAU => some (0, 50)
  | .EMPTIES_RESERVE => some (50, 500)
  | .CREATES_EMPTY_TABLEAU => some (-100, 0)
  | .PLAYS_ACE => some (0, 50)
  | .PLAYS_TWO => some (0, 50)
  | .POINTLESS_TABLEAU_SHUFFLE => some (-500, 0)
  | .TABLEAU_MOVE_NO_BENEFIT => some (-200, 0)
  | .CREATES_USEFUL_EMPTY => some (0, 100)
  | .DRAW_AVOIDANCE_EMPTY_BONUS => none
  | .STACK_HEIGHT_BONUS => none
  | .SPREAD_PENALTY => none

/-- `clamp` from `overnight-train.ts`: `Math.max(min, Math.min(max, value))`. -/
def clampQ (value lo hi : ℚ) : ℚ :=
  max lo (min hi value)

/-- JS `Math.round`: round half toward positive infinity. -/
def jsRound (x : ℚ) : ℤ :=
  ⌊x + mkRat 1 2⌋

/-- The per-key loop of `createRandomIndividual` (lines 159-168).  `rand i`
is the value of the i-th `Math.random()` call.  A key with no
`WEIGHT_BOUNDS` entry makes the JS code read `.min` of `undefined`, a
thrown `TypeError`, modelled as `none`. -/
def createRandomIndividualGo (rand : Nat → ℚ) (base : ScoreWeights) :
    List WeightKey → Nat → ScoreWeights → Option ScoreWeights
  | [], _, w => some w
  | k :: ks, i, w =>
      match WEIGHT_BOUNDS k with
      | none => none
      | some (lo, hi) =>
          let variation : ℚ := mkRat 7 10 + rand i * mkRat 6 10
          createRandomIndividualGo rand base ks (i + 1)
            (setW w k (clampQ ((jsRound (getW base k * variation) : ℤ) : ℚ) lo hi))

/-- `createRandomIndividual` from `overnight-train.ts` lines 156-178
(weights part of the produced individual; the counters are all zero). -/
def createRandomIndividual (rand : Nat → ℚ) (baseWeights : ScoreWeights) : Option ScoreWeights :=
  createRandomIndividualGo rand baseWeights scoreWeightsKeys 0 baseWeights

/-- The per-key loop of `mutate` (lines 210-221): one `Math.random()` per
key for the rate check and, when it fires, a second one for the delta. -/
def mutateGo (rand : Nat → ℚ) (rate strength : ℚ) :
    List WeightKey → Nat → ScoreWeights → Option ScoreWeights
  | [], _, w => some w
  | k :: ks, i, w =>
      if rand i < rate then
        match WEIGHT_BOUNDS k with
        | none => none
        | some (lo, hi) =>
            let bRange := hi - lo
            let delta := (rand (i + 1) * 2 - 1) * bRange * strength
            mutateGo rand rate strength ks (i + 2)
              (setW w k (clampQ ((jsRound (getW w k + delta) : ℤ) : ℚ) lo hi))
      else
        mutateGo rand rate strength ks (i + 1) w

/-- `mutate` from `overnight-train.ts` lines 207-224. -/
def mutate (rand : Nat → ℚ) (weights : ScoreWeights) (rate strength : ℚ) : Option ScoreWeights :=
  mutateGo rand rate strength scoreWeightsKeys 0 weights

/-! ### heuristic AI (src/unnamed/part_001)

The decision maker.  Its `Set<string>` cycle trackers are lists of strings
(membership-equivalent), and the LCG closure `createRng` is threaded as an
explicit `Nat` state.  Two modelling notes:
* the JS LCG multiplies 31-bit states by 1103515245, whose exact product
  exceeds 2^53 and is rounded by IEEE-754 before the `& 0x7fffffff`; the
  embedding uses exact integer arithmetic.  No claim settled here depends
  on the numeric value of an RNG draw.
* JS number-to-string rendering is modelled exactly for integers and
  one-decimal values (the only ones the settled theorems evaluate);
  other rationals render as `num/den`.
-/

structure AIConfig where
  explorationRate : ℚ
  shufflePenalty : ℚ
  patternMemory : Nat
  lookAheadDepth : Nat
  lookAheadFoundationBonus : ℚ
  lookAheadEmptyBonus : ℚ
  lookAheadAttackBonus : ℚ
  lookAheadBranchFactor : Nat
deriving DecidableEq, Repr

/-- `DEFAULT_AI_CONFIG` (0.05 = 1/20). -/
def DEFAULT_AI_CONFIG : AIConfig :=
  { explorationRate := mkRat 1 20
    shufflePenalty := 50
    patternMemory := 10
    lookAheadDepth := 3
    lookAheadFoundationBonus := 30
    lookAheadEmptyBonus := 20
    lookAheadAttackBonus := 15
    lookAheadBranchFactor := 4 }

structure ScoredMove where
  move : Move
  score : ℚ
  reasoning : String
deriving DecidableEq, Repr

inductive DecisionType
  | move | draw
deriving DecidableEq, Repr

/-- `AIDecision`: `{type, move?, reasoning}`. -/
structure AIDecision where
  dtype : DecisionType
  move : Option Move := none
  reasoning : String
deriving DecidableEq, Repr

structure AITurnStep where
  state : GameState
  decision : AIDecision
deriving DecidableEq, Repr

def pileTypeStr (t : PileType) : String :=
  match t with
  | .reserve => "reserve"
  | .waste => "waste"
  | .tableau => "tableau"
  | .foundation => "foundation"
  | .hand => "hand"
  | .drawn => "drawn"

def playerStr (p : Player) : String :=
  match p with
  | .player1 => "player1"
  | .player2 => "player2"

def suitStr (s : Suit) : String :=
  match s with
  | .hearts => "hearts"
  | .diamonds => "diamonds"
  | .clubs => "clubs"
  | .spades => "spades"

/-- JS `${x ?? ''}` for an optional player. -/
def optPlayerStr (o : Option Player) : String :=
  match o with
  | some p => playerStr p
  | none => ""

/-- JS `${x ?? ''}` for an optional index. -/
def optNatStr (o : Option Nat) : String :=
  match o with
  | some i => Nat.repr i
  | none => ""

/-- JS `${x}` for an optional value without `??`: `undefined` renders as
the string `undefined`. -/
def optPlayerTemplateStr (o : Option Player) : String :=
  match o with
  | some p => playerStr p
  | none => "undefined"

def optNatTemplateStr (o : Option Nat) : String :=
  match o with
  | some i => Nat.repr i
  | none => "undefined"

/-- JS number rendering: exact for integers; non-integral rationals (never
evaluated by the theorems below) render as `num/den`. -/
def qStr (q : ℚ) : String :=
  if q.den = 1 then Int.repr q.num else Int.repr q.num ++ "/" ++ Nat.repr q.den

/-- `movePatternKey`: pattern string with `?? ''` defaults. -/
def movePatternKey (move : Move) : String :=
  pileTypeStr move.fromLoc.type ++ ":" ++ optPlayerStr move.fromLoc.owner ++ ":" ++
    optNatStr move.fromLoc.index ++ "->" ++ pileTypeStr move.toLoc.type ++ ":" ++
    optPlayerStr move.toLoc.owner ++ ":" ++ optNatStr move.toLoc.index

/-- `isTableauShuffle`. -/
def isTableauShuffle (move : Move) : Bool :=
  move.fromLoc.type == .tableau && move.toLoc.type == .tableau

/-- The filter predicate of `findEmptyCreatingMoves`: tableau-to-tableau
moves from a singleton pile to a non-empty pile. -/
def findEmptyCreatingPred (state : GameState) (move : Move) : Bool :=
  if !(move.fromLoc.type == .tableau && move.toLoc.type == .tableau) then
    false
  else
    match move.fromLoc.owner with
    | none => false
    | some fromOwner =>
        match (getPlayerState state fromOwner).tableau.get? (move.fromLoc.index.getD 0) with
        | none => false
        | some fromPile =>
            if fromPile.length != 1 then
              false
            else
              match move.toLoc.owner with
              | none => false
              | some toOwner =>
                  match (getPlayerState state toOwner).tableau.get? (move.toLoc.index.getD 0) with
                  | none => false
                  | some toPile => decide (toPile.length > 0)

/-- `findEmptyCreatingMoves`. -/
def findEmptyCreatingMoves (state : GameState) : List Move :=
  (getValidMoves state).filter (findEmptyCreatingPred state)

structure LookAheadResult where
  foundationMoves : ℚ
  emptyCreatingMoves : ℚ
  attackMoves : ℚ
deriving DecidableEq, Repr

/-- `isEmptyCreatingMove` (same test as the filter predicate above; the
source duplicates it). -/
def isEmptyCreatingMove (state : GameState) (move : Move) : Bool :=
  findEmptyCreatingPred state move

/-- `isAttackMove`: destination is the opponent's reserve or waste. -/
def isAttackMove (state : GameState) (move : Move) : Bool :=
  (move.toLoc.type == .reserve && move.toLoc.owner != some state.currentTurn) ||
    (move.toLoc.type == .waste && move.toLoc.owner != some state.currentTurn)

/-- Stable descending insertion used to model the (stable) JS
`Array.prototype.sort` with a numeric comparator: a later element is placed
after every existing element of greater or equal key. -/
def insertDescBy {α : Type} (key : α → ℚ) : List α → α → List α
  | [], x => [x]
  | y :: ys, x => if key x > key y then x :: y :: ys else y :: insertDescBy key ys x

def sortDescBy {α : Type} (key : α → ℚ) (l : List α) : List α :=
  l.foldl (insertDescBy key) []

/-- The branch-ordering key of `evaluateLookAhead`: foundation counts 2,
attack counts 1. -/
def branchPriority (newState : GameState) (m : Move) : ℚ :=
  (if m.toLoc.type == .foundation then 2 else 0) + (if isAttackMove newState m then 1 else 0)

/-- `evaluateLookAhead` (lines 291-334): simulate the move, count
foundation / empty-creating / attack follow-ups, and recurse on up to
`branchFactor` branches ordered foundation-first, each deeper level
discounted by one half. -/
def evaluateLookAhead (branchFactor : Nat) : Nat → GameState → Move → LookAheadResult
  | 0, _, _ => { foundationMoves := 0, emptyCreatingMoves := 0, attackMoves := 0 }
  | depth + 1, state, move =>
      let result := applyMove state move
      match result.valid, result.newState with
      | true, some newState =>
          let nextMoves := getValidMoves newState
          let f0 : ℚ := ((nextMoves.filter fun m => m.toLoc.type == .foundation).length : ℚ)
          let e0 : ℚ := ((nextMoves.filter fun m => isEmptyCreatingMove newState m).length : ℚ)
          let a0 : ℚ := ((nextMoves.filter fun m => isAttackMove newState m).length : ℚ)
          if depth + 1 > 1 && nextMoves.length > 0 then
            let sorted := sortDescBy (branchPriority newState) nextMoves
            let movesToCheck := sorted.take branchFactor
            let acc := movesToCheck.foldl
              (fun acc nextMove =>
                let deeper := evaluateLookAhead branchFactor depth newState nextMove
                (acc.1 + deeper.foundationMoves * mkRat 1 2,
                  acc.2.1 + deeper.emptyCreatingMoves * mkRat 1 2,
                  acc.2.2 + deeper.attackMoves * mkRat 1 2))
              (f0, e0, a0)
            { foundationMoves := acc.1, emptyCreatingMoves := acc.2.1, attackMoves := acc.2.2 }
          else
            { foundationMoves := f0, emptyCreatingMoves := e0, attackMoves := a0 }
      | _, _ => { foundationMoves := 0, emptyCreatingMoves := 0, attackMoves := 0 }

/-- `cardPositionKey` (template-literal semantics, `undefined` rendered). -/
def cardPositionKey (cardSuit : Suit) (cardRank : Nat) (cardDeck : Player)
    (location : PileLocation) : String :=
  let locKey :=
    if location.type == .foundation then
      "f" ++ optNatTemplateStr location.index
    else
      pileTypeStr location.type ++ "-" ++ optPlayerTemplateStr location.owner ++ "-" ++
        Nat.repr (location.index.getD 0)
  suitStr cardSuit ++ Nat.repr cardRank ++ playerStr cardDeck ++ "@" ++ locKey

def cardStr (c : Card) : String :=
  suitStr c.suit ++ Nat.repr c.rank ++ playerStr c.deck

def pileStr (pile : List Card) : String :=
  String.intercalate "," (pile.map cardStr)

/-- `hashGameState`: the canonical board hash. -/
def hashGameState (state : GameState) : String :=
  let playerParts := fun (p : Player) =>
    let ps := getPlayerState state p
    [pileStr ps.reserve, pileStr ps.waste] ++ ps.tableau.map pileStr
  let drawnParts := fun (p : Player) =>
    match (getPlayerState state p).drawnCard with
    | some c => ["dc" ++ playerStr p ++ ":" ++ cardStr c]
    | none => []
  String.intercalate "|"
    (playerParts .player1 ++ playerParts .player2 ++ state.foundations.map pileStr ++
      drawnParts .player1 ++ drawnParts .player2)

/-- `computeTableauStackMetrics`: tallest pile height and number of
non-empty piles. -/
def computeTableauStackMetrics (state : GameState) (player : Player) : Nat × Nat :=
  (getPlayerState state player).tableau.foldl
    (fun acc pile =>
      if pile.length > 0 then
        (max acc.1 pile.length, acc.2 + 1)
      else
        acc)
    (0, 0)

/-- The usefulness check for the card exposed by a multi-card
tableau-to-tableau move: a foundation play or an attack. -/
def exposedCardIsUseful (state : GameState) (exposedCard : Card) : Bool :=
  let opponentState := getPlayerState state (getOpponent state.currentTurn)
  ((List.range state.foundations.length).any fun i =>
    match state.foundations.get? i with
    | some pile => canPlayOnFoundation exposedCard pile i
    | none => false) ||
  canPlayOnOpponentPile exposedCard opponentState.waste ||
  canPlayOnOpponentPile exposedCard opponentState.reserve

/-- `scoreMove` (lines 393-537). -/
def scoreMove (state : GameState) (move : Move) (weights : ScoreWeights) : ScoredMove :=
  let currentPlayer := state.currentTurn
  let playerState := getPlayerState state currentPlayer
  let destPart : ℚ × List String :=
    if move.toLoc.type == .foundation then
      if move.card.rank == 1 then
        (weights.TO_FOUNDATION + weights.PLAYS_ACE, ["foundation", "ace"])
      else if move.card.rank == 2 then
        (weights.TO_FOUNDATION + weights.PLAYS_TWO, ["foundation", "two"])
      else
        (weights.TO_FOUNDATION, ["foundation"])
    else if move.toLoc.type == .reserve && move.toLoc.owner != some currentPlayer then
      (weights.ATTACK_RESERVE, ["attack-reserve"])
    else if move.toLoc.type == .waste && move.toLoc.owner != some currentPlayer then
      (weights.ATTACK_WASTE, ["attack-waste"])
    else if move.toLoc.type == .tableau then
      if move.toLoc.owner == some currentPlayer then
        (weights.TO_OWN_TABLEAU, ["own-tableau"])
      else
        (weights.TO_OPPONENT_TABLEAU, ["opponent-tableau"])
    else
      (0, [])
  let srcPart : ℚ × List String :=
    if move.fromLoc.type == .reserve then
      if playerState.reserve.length == 1 then
        (weights.FROM_RESERVE + weights.EMPTIES_RESERVE, ["from-reserve", "empties-reserve!"])
      else
        (weights.FROM_RESERVE, ["from-reserve"])
    else if move.fromLoc.type == .waste || move.fromLoc.type == .drawn then
      (weights.FROM_WASTE, ["from-waste"])
    else if move.fromLoc.type == .tableau then
      let extra : ℚ × List String :=
        match move.fromLoc.owner with
        | none => (0, [])
        | some fromOwner =>
            match (getPlayerState state fromOwner).tableau.get? (move.fromLoc.index.getD 0) with
            | none => (0, [])
            | some pile =>
                if pile.length == 1 then
                  if move.toLoc.type == .tableau && move.toLoc.owner.isSome then
                    let toState := getPlayerState state (move.toLoc.owner.getD currentPlayer)
                    match toState.tableau.get? (move.toLoc.index.getD 0) with
                    | some toPile =>
                        if toPile.length == 0 then
                          (weights.POINTLESS_TABLEAU_SHUFFLE, ["pointless-shuffle!"])
                        else
                          (weights.CREATES_USEFUL_EMPTY, ["creates-empty-spot"])
                    | none => (weights.CREATES_USEFUL_EMPTY, ["creates-empty-spot"])
                  else
                    (weights.CREATES_EMPTY_TABLEAU, ["empties-tableau"])
                else if pile.length > 1 && move.toLoc.type == .tableau then
                  match pile.get? (pile.length - 2) with
                  | some exposedCard =>
                      if exposedCardIsUseful state exposedCard then
                        (0, [])
                      else
                        (weights.TABLEAU_MOVE_NO_BENEFIT, ["no-benefit"])
                  | none => (0, [])
                else
                  (0, [])
      (weights.FROM_TABLEAU + extra.1, ["from-tableau"] ++ extra.2)
    else
      (0, [])
  let stackPart : ℚ × List String :=
    if move.toLoc.type == .tableau && move.toLoc.owner == some currentPlayer then
      let before := computeTableauStackMetrics state currentPlayer
      let simResult := applyMove state move
      match simResult.valid, simResult.newState with
      | true, some newState =>
          let after := computeTableauStackMetrics newState currentPlayer
          let heightDelta : ℤ := (after.1 : ℤ) - (before.1 : ℤ)
          let hPart : ℚ × List String :=
            if heightDelta > 0 then
              (weights.STACK_HEIGHT_BONUS * (heightDelta : ℚ),
                ["stack-height:+" ++ Int.repr heightDelta])
            else
              (0, [])
          let spreadDelta : ℤ := (after.2 : ℤ) - (before.2 : ℤ)
          let sPart : ℚ × List String :=
            if spreadDelta > 0 then
              (weights.SPREAD_PENALTY * (spreadDelta : ℚ), ["spread"])
            else if spreadDelta < 0 then
              (-weights.SPREAD_PENALTY * ((-spreadDelta : ℤ) : ℚ), ["consolidate"])
            else
              (0, [])
          (hPart.1 + sPart.1, hPart.2 ++ sPart.2)
      | _, _ => (0, [])
    else
      (0, [])
  { move := move
    score := destPart.1 + srcPart.1 + stackPart.1
    reasoning := String.intercalate ", " (destPart.2 ++ srcPart.2 ++ stackPart.2) }

/-- The keep-predicate of the pointless-shuffle filter in `getScoredMoves`
(lines 568-580): `true` keeps the move. -/
def keepNotPointless (state : GameState) (move : Move) : Bool :=
  if !(move.fromLoc.type == .tableau && move.toLoc.type == .tableau) then
    true
  else
    match move.fromLoc.owner with
    | none => true
    | some fromOwner =>
        match (getPlayerState state fromOwner).tableau.get? (move.fromLoc.index.getD 0) with
        | none => true
        | some sourcePile =>
            if sourcePile.length != 1 then
              true
            else
              match move.toLoc.owner with
              | none => true
              | some toOwner =>
                  match (getPlayerState state toOwner).tableau.get? (move.toLoc.index.getD 0) with
                  | none => true
                  | some destPile => decide (destPile.length > 0)

/-- JS `Math.round(x*10)/10` rendered as a string, for the look-ahead
reasoning fragments (`t` is the rounded tenths value, always non-negative
here). -/
def tenthsStr (t : ℤ) : String :=
  if t % 10 = 0 then Int.repr (t / 10)
  else Int.repr (t / 10) ++ "." ++ Nat.repr (t % 10).natAbs

/-- The per-move adjustment of `getScoredMoves` (lines 591-628): base
score, shuffle-pattern penalty, then the look-ahead bonus. -/
def adjustScored (state : GameState) (weights : ScoreWeights) (config : AIConfig)
    (recentMoves : List String) (move : Move) : ScoredMove :=
  let base := scoreMove state move weights
  let base1 :=
    if isTableauShuffle move then
      let pattern := movePatternKey move
      let patternCount := (recentMoves.filter fun p => p == pattern).length
      if patternCount > 0 then
        { base with
          score := base.score - config.shufflePenalty * (patternCount : ℚ)
          reasoning := base.reasoning ++ ", shuffle-penalty:" ++ Nat.repr patternCount }
      else
        base
    else
      base
  if config.lookAheadDepth > 0 && move.toLoc.type != .foundation then
    let ahead := evaluateLookAhead config.lookAheadBranchFactor config.lookAheadDepth state move
    let bonusF : ℚ :=
      if ahead.foundationMoves > 0 then ahead.foundationMoves * config.lookAheadFoundationBonus else 0
    let bonusE : ℚ :=
      if ahead.emptyCreatingMoves > 0 then ahead.emptyCreatingMoves * config.lookAheadEmptyBonus else 0
    let bonusA : ℚ :=
      if ahead.attackMoves > 0 then ahead.attackMoves * config.lookAheadAttackBonus else 0
    let lookAheadBonus := bonusF + bonusE + bonusA
    let parts :=
      (if ahead.foundationMoves > 0 then [tenthsStr (jsRound (ahead.foundationMoves * 10)) ++ "f"] else []) ++
      (if ahead.emptyCreatingMoves > 0 then [tenthsStr (jsRound (ahead.emptyCreatingMoves * 10)) ++ "e"] else []) ++
      (if ahead.attackMoves > 0 then [tenthsStr (jsRound (ahead.attackMoves * 10)) ++ "a"] else [])
    if lookAheadBonus > 0 then
      { base1 with
        score := base1.score + lookAheadBonus
        reasoning := base1.reasoning ++ ", look-ahead:+" ++ String.intercalate "+" parts }
    else
      base1
  else
    base1

/-- `getScoredMoves` (lines 543-634): position-cycle filter (disabled while
a drawn card is held), the unconditional pointless-shuffle filter, the
state-cycle filter, scoring, and the stable descending sort. -/
def getScoredMoves (state : GameState) (seenPositions seenStates : List String)
    (weights : ScoreWeights) (config : AIConfig) (recentMoves : List String) : List ScoredMove :=
  let moves := getValidMoves state
  let shouldFilterCycles := (getPlayerState state state.currentTurn).drawnCard.isNone
  let cycleFiltered :=
    if shouldFilterCycles then
      moves.filter fun move =>
        !(seenPositions.contains (cardPositionKey move.card.suit move.card.rank move.card.deck move.toLoc))
    else
      moves
  let filteredMoves := cycleFiltered.filter (keepNotPointless state)
  let stateFiltered :=
    if shouldFilterCycles then
      filteredMoves.filter fun move =>
        let result := applyMove state move
        match result.valid, result.newState with
        | true, some ns => !(seenStates.contains (hashGameState ns))
        | _, _ => false
    else
      filteredMoves
  let scored := stateFiltered.map (adjustScored state weights config recentMoves)
  sortDescBy (fun sm => sm.score) scored

/-- One step of the `createRng` LCG closure (line 738): the closure state
after a call, which is also the numerator of the returned value. -/
def nextRng (state : Nat) : Nat :=
  (state * 1103515245 + 12345) % 2147483648

/-- The value returned by a call of the rng closure whose post-call state
is `s`: `s / 0x7fffffff`. -/
def rngValue (s : Nat) : ℚ :=
  mkRat s 2147483647

/-- `getAIDecision` (lines 647-697).  Returns the decision and the rng
state after the calls the branch makes; `none` models the TypeError thrown
when the exploration index `Math.floor(rng() * length)` equals `length`
(possible only when the rng returns exactly 1). -/
def getAIDecision (state : GameState) (seenPositions seenStates : List String)
    (weights : ScoreWeights) (config : AIConfig) (recentMoves : List String) (rng : Nat) :
    Option (AIDecision × Nat) :=
  if state.winner.isSome || state.turnPhase == .ended then
    some ({ dtype := .draw, reasoning := "game-over" }, rng)
  else
    let scoredMoves := getScoredMoves state seenPositions seenStates weights config recentMoves
    if scoredMoves.isEmpty then
      let emptyCreating := findEmptyCreatingMoves state
      match emptyCreating.head? with
      | some chosen =>
          some ({ dtype := .move, move := some chosen,
                  reasoning := "draw-avoidance-empty (bonus: " ++
                    qStr weights.DRAW_AVOIDANCE_EMPTY_BONUS ++ ")" }, rng)
      | none => some ({ dtype := .draw, reasoning := "no-moves-available" }, rng)
    else
      let r1 := nextRng rng
      if rngValue r1 < config.explorationRate && scoredMoves.length > 1 then
        let r2 := nextRng r1
        let randomIndex := (⌊rngValue r2 * (scoredMoves.length : ℚ)⌋).toNat
        match scoredMoves.get? randomIndex with
        | some chosen =>
            some ({ dtype := .move, move := some chosen.move,
                    reasoning := chosen.reasoning ++ " (score: " ++ qStr chosen.score ++
                      ", explored)" }, r2)
        | none => none
      else
        match scoredMoves.head? with
        | some best =>
            some ({ dtype := .move, move := some best.move,
                    reasoning := best.reasoning ++ " (score: " ++ qStr best.score ++ ")" }, r1)
        | none => none

/-- `recordCardPositions` (lines 702-725): add the tops of the player's
reserve, waste, and tableau piles to the position set. -/
def recordCardPositions (state : GameState) (player : Player) (positions : List String) :
    List String :=
  let ps := getPlayerState state player
  let reserveKeys :=
    match ps.reserve.getLast? with
    | some c => [cardPositionKey c.suit c.rank c.deck { type := .reserve, owner := some player }]
    | none => []
  let wasteKeys :=
    match ps.waste.getLast? with
    | some c => [cardPositionKey c.suit c.rank c.deck { type := .waste, owner := some player }]
    | none => []
  let tableauKeys :=
    (List.range ps.tableau.length).flatMap fun i =>
      match ps.tableau.get? i with
      | some pile =>
          match pile.getLast? with
          | some c =>
              [cardPositionKey c.suit c.rank c.deck
                { type := .tableau, owner := some player, index := some i }]
          | none => []
      | none => []
  positions ++ reserveKeys ++ wasteKeys ++ tableauKeys

/-- The `while (recentMoves.length > patternMemory) shift()` trim. -/
def trimRecent (l : List String) (memory : Nat) : List String :=
  l.drop (l.length - memory)

/-- `MAX_MOVES_PER_TURN` (line 778). -/
def MAX_MOVES_PER_TURN : Nat := 100

/-- The `while` loop of `computeAITurn` (lines 781-857), with an explicit
fuel.  Every non-breaking iteration produces a state with `moveCount`
incremented (each applied move and each successful draw does so), and once
`moveCount` reaches `MAX_MOVES` the engine sets the phase to `ended` and
the next iteration breaks — so from any input the loop runs fewer than
`initial.moveCount`-to-1000 plus two iterations, and the fuel of 1102 used
below is never exhausted.  `none` propagates the exploration-index crash of
`getAIDecision`.  `loopCount` is the loop's `moveCount` counter (moves
only, draws excluded). -/
def computeAITurnLoop (weights : ScoreWeights) (config : AIConfig) (aiPlayer : Player) :
    Nat → GameState → List String → List String → List String → Nat → Nat →
      Option (List AITurnStep)
  | 0, _, _, _, _, _, _ => some []
  | fuel + 1, state, seenPositions, seenStates, recentMoves, loopCount, rng =>
      if !(loopCount < MAX_MOVES_PER_TURN) then
        some []
      else if state.currentTurn != aiPlayer then
        some []
      else if state.winner.isSome || state.turnPhase == .ended then
        some []
      else
        match getAIDecision state seenPositions seenStates weights config recentMoves rng with
        | none => none
        | some (decision, rng1) =>
            match decision.dtype, decision.move with
            | .move, some mv =>
                let result := applyMove state mv
                match result.valid, result.newState with
                | true, some newState =>
                    let pattern := movePatternKey mv
                    let recent1 := trimRecent (recentMoves ++ [pattern]) config.patternMemory
                    let seenP1 :=
                      recordCardPositions newState .player2
                        (recordCardPositions newState .player1 seenPositions)
                    let seenS1 := seenStates ++ [hashGameState newState]
                    match computeAITurnLoop weights config aiPlayer fuel newState seenP1 seenS1
                        recent1 (loopCount + 1) rng1 with
                    | none => none
                    | some rest => some ({ state := newState, decision := decision } :: rest)
                | _, _ =>
                    let drawResult := drawFromHand state
                    match drawResult.valid, drawResult.newState with
                    | true, some newState =>
                        let step : AITurnStep :=
                          { state := newState,
                            decision := { dtype := .draw, reasoning := "move-failed-fallback" } }
                        if drawResult.turnEnded == some true then
                          some [step]
                        else
                          let seenP1 :=
                            recordCardPositions newState .player2
                              (recordCardPositions newState .player1 [])
                          let seenS1 := [hashGameState newState]
                          match computeAITurnLoop weights config aiPlayer fuel newState seenP1
                              seenS1 recentMoves loopCount rng1 with
                          | none => none
                          | some rest => some (step :: rest)
                    | _, _ => some []
            | _, _ =>
                let drawResult := drawFromHand state
                match drawResult.valid, drawResult.newState with
                | true, some newState =>
                    let step : AITurnStep := { state := newState, decision := decision }
                    if drawResult.turnEnded == some true then
                      some [step]
                    else
                      let seenP1 :=
                        recordCardPositions newState .player2
                          (recordCardPositions newState .player1 [])
                      let seenS1 := [hashGameState newState]
                      match computeAITurnLoop weights config aiPlayer fuel newState seenP1 seenS1
                          recentMoves loopCount rng1 with
                      | none => none
                      | some rest => some (step :: rest)
                | _, _ => some []

def aiTurnFuel : Nat := 1102

/-- `computeAITurn` (lines 751-860): seeds the internal rng from
`state.seed + state.moveCount`, records the initial card positions and the
initial board hash, and runs the turn loop. -/
def computeAITurn (initialState : GameState) (weights : ScoreWeights) (config : AIConfig)
    (recentGameMoves : List String) : Option (List AITurnStep) :=
  let aiPlayer := initialState.currentTurn
  let rng0 := initialState.seed + initialState.moveCount
  let seenPositions :=
    recordCardPositions initialState .player2 (recordCardPositions initialState .player1 [])
  let seenStates := [hashGameState initialState]
  computeAITurnLoop weights config aiPlayer aiTurnFuel initialState seenPositions seenStates
    recentGameMoves 0 rng0

/-- The checkpoint record of `overnight-train.ts` (the fields that the
startup decision reads; the payload carried along on resume is irrelevant
to the claims and represented by `currentGeneration`). -/
structure Checkpoint where
  version : Int
  currentGeneration : Nat
deriving DecidableEq, Repr

/-- The two ways `runOvernightTraining` can start.  There is no error
alternative: the source has no failure path at startup. -/
inductive StartMode
  | resume (cp : Checkpoint)
  | fresh
deriving DecidableEq, Repr

/-- The startup decision of `runOvernightTraining` (lines 503-527):
`if (checkpoint && checkpoint.version === 1)` resume, `else` start a fresh
training run. -/
def resumeDecision (checkpoint : Option Checkpoint) : StartMode :=
  match checkpoint with
  | some cp => if cp.version = 1 then .resume cp else .fresh
  | none => .fresh

/-! ### The pointless-shuffle property (C7) -/

/-- The property of C7: the move takes the only card of a tableau pile to
an empty tableau pile (evaluated on the state the move is decided in). -/
def isPointlessTableauShuffle (s : GameState) (m : Move) : Bool :=
  m.fromLoc.type == .tableau && m.toLoc.type == .tableau &&
  (match m.fromLoc.owner with
   | some fromOwner =>
       match (getPlayerState s fromOwner).tableau.get? (m.fromLoc.index.getD 0) with
       | some pile => pile.length == 1
       | none => false
   | none => false) &&
  (match m.toLoc.owner with
   | some toOwner =>
       match (getPlayerState s toOwner).tableau.get? (m.toLoc.index.getD 0) with
       | some pile => pile.length == 0
       | none => false
   | none => false)

/-- The post-state of each step is the pre-state of the next one; pair
every decision of a step sequence with its pre-state. -/
def decisionsWithPre (s : GameState) : List AITurnStep → List (GameState × AIDecision)
  | [] => []
  | st :: rest => (s, st.decision) :: decisionsWithPre st.state rest

theorem mem_insertDescBy {α : Type} (key : α → ℚ) (l : List α) (x y : α) :
    y ∈ insertDescBy key l x ↔ y = x ∨ y ∈ l := by
  induction l with
  | nil => simp [insertDescBy]
  | cons z zs ih =>
      simp only [insertDescBy]
      split
      · simp [List.mem_cons]
      · simp only [List.mem_cons, ih]
        tauto

theorem mem_sortDescBy {α : Type} (key : α → ℚ) (l : List α) (y : α) :
    y ∈ sortDescBy key l ↔ y ∈ l := by
  have main : ∀ (l acc : List α), y ∈ l.foldl (insertDescBy key) acc ↔ y ∈ acc ∨ y ∈ l := by
    intro l
    induction l with
    | nil => simp
    | cons z zs ih =>
        intro acc
        simp only [List.foldl_cons, ih, mem_insertDescBy, List.mem_cons]
        tauto
  simp [sortDescBy, main]

theorem scoreMove_move (s : GameState) (m : Move) (w : ScoreWeights) :
    (scoreMove s m w).move = m := rfl

theorem adjustScored_move (s : GameState) (w : ScoreWeights) (c : AIConfig)
    (rm : List String) (m : Move) : (adjustScored s w c rm m).move = m := by
  unfold adjustScored
  dsimp only
  repeat' split
  all_goals rfl

theorem keep_imp_not_pointless (s : GameState) (m : Move)
    (h : keepNotPointless s m = true) : isPointlessTableauShuffle s m = false := by
  unfold keepNotPointless at h
  unfold isPointlessTableauShuffle
  repeat' split at h
  all_goals repeat' split
  all_goals (try simp_all [List.getElem?_eq_none])
  all_goals intros
  all_goals (try tauto)
  all_goals (intro he; subst he; simp_all)

theorem emptyCreating_not_pointless (s : GameState) (m : Move)
    (h : findEmptyCreatingPred s m = true) : isPointlessTableauShuffle s m = false := by
  unfold findEmptyCreatingPred at h
  unfold isPointlessTableauShuffle
  repeat' split at h
  all_goals repeat' split
  all_goals (try simp_all [List.getElem?_eq_none])
  all_goals intros
  all_goals (try tauto)
  all_goals (intro he; subst he; simp_all)

theorem mem_getScoredMoves (s : GameState) (sp ss : List String) (w : ScoreWeights)
    (c : AIConfig) (rm : List String) (sm : ScoredMove)
    (h : sm ∈ getScoredMoves s sp ss w c rm) :
    sm.move ∈ getValidMoves s ∧ keepNotPointless s sm.move = true := by
  unfold getScoredMoves at h
  rw [mem_sortDescBy] at h
  obtain ⟨mv, hmem, heq⟩ := List.mem_map.mp h
  have hmv : sm.move = mv := by rw [← heq, adjustScored_move]
  rw [hmv]
  cases hd : (getPlayerState s s.currentTurn).drawnCard.isNone with
  | true =>
      rw [hd] at hmem
      simp only [if_true, eq_self_iff_true, List.mem_filter] at hmem
      exact ⟨by tauto, by tauto⟩
  | false =>
      rw [hd] at hmem
      simp only [Bool.false_eq_true, if_false, List.mem_filter] at hmem
      exact ⟨by tauto, by tauto⟩

theorem getAIDecision_not_pointless (s : GameState) (sp ss : List String) (w : ScoreWeights)
    (c : AIConfig) (rm : List String) (rng : Nat) (d : AIDecision) (rng' : Nat)
    (h : getAIDecision s sp ss w c rm rng = some (d, rng')) (m : Move)
    (hm : d.move = some m) : isPointlessTableauShuffle s m = false := by
  unfold getAIDecision at h
  dsimp only at h
  split at h
  · simp only [Option.some.injEq, Prod.mk.injEq] at h
    rw [← h.1] at hm
    exact absurd hm (by simp)
  · split at h
    · split at h
      · rename_i chosen heqHead
        simp only [Option.some.injEq, Prod.mk.injEq] at h
        rw [← h.1] at hm
        simp only [Option.some.injEq] at hm
        subst hm
        have hmem : chosen ∈ findEmptyCreatingMoves s :=
          List.mem_of_mem_head? (by rw [heqHead]; exact rfl)
        have hpred := (List.mem_filter.mp hmem).2
        exact emptyCreating_not_pointless s chosen hpred
      · simp only [Option.some.injEq, Prod.mk.injEq] at h
        rw [← h.1] at hm
        exact absurd hm (by simp)
    · split at h
      · split at h
        · rename_i chosen heqGet
          simp only [Option.some.injEq, Prod.mk.injEq] at h
          rw [← h.1] at hm
          simp only [Option.some.injEq] at hm
          have hmem := List.get?_mem heqGet
          have hkeep := (mem_getScoredMoves s sp ss w c rm chosen hmem).2
          rw [← hm]
          exact keep_imp_not_pointless s chosen.move hkeep
        · exact absurd h (by simp)
      · split at h
        · rename_i best heqHead
          simp only [Option.some.injEq, Prod.mk.injEq] at h
          rw [← h.1] at hm
          simp only [Option.some.injEq] at hm
          have hmem : best ∈ getScoredMoves s sp ss w c rm :=
            List.mem_of_mem_head? (by rw [heqHead]; exact rfl)
          have hkeep := (mem_getScoredMoves s sp ss w c rm best hmem).2
          rw [← hm]
          exact keep_imp_not_pointless s best.move hkeep
        · exact absurd h (by simp)

theorem computeAITurnLoop_not_pointless (w : ScoreWeights) (c : AIConfig) (ap : Player) :
    ∀ (fuel : Nat) (s : GameState) (sp ss : List String) (rm : List String) (lc rng : Nat)
      (steps : List AITurnStep),
      computeAITurnLoop w c ap fuel s sp ss rm lc rng = some steps →
      ∀ p d, (p, d) ∈ decisionsWithPre s steps → ∀ m, d.move = some m →
        isPointlessTableauShuffle p m = false := by
  intro fuel
  induction fuel with
  | zero =>
      intro s sp ss rm lc rng steps h p d hpd m hm
      simp only [computeAITurnLoop, Option.some.injEq] at h
      subst h
      simp [decisionsWithPre] at hpd
  | succ fuel ih =>
      intro s sp ss rm lc rng steps h p d hpd m hm
      simp only [computeAITurnLoop] at h
      (try dsimp only at h)
      split at h
      · simp only [Option.some.injEq] at h
        subst h
        simp [decisionsWithPre] at hpd
      · split at h
        · simp only [Option.some.injEq] at h
          subst h
          simp [decisionsWithPre] at hpd
        · split at h
          · simp only [Option.some.injEq] at h
            subst h
            simp [decisionsWithPre] at hpd
          · split at h
            · exact absurd h (by simp)
            · rename_i decision rng1 heqDec
              split at h
              · rename_i mv heqT heqM
                split at h
                · rename_i newState heqValid heqNew
                  split at h
                  · exact absurd h (by simp)
                  · rename_i rest heqRec
                    simp only [Option.some.injEq] at h
                    subst h
                    simp only [decisionsWithPre] at hpd
                    rcases List.mem_cons.mp hpd with hpd | hpd
                    · have hp := congrArg Prod.fst hpd
                      have hd := congrArg Prod.snd hpd
                      dsimp at hp hd
                      rw [hp]
                      rw [hd] at hm
                      exact getAIDecision_not_pointless s sp ss w c rm rng decision rng1
                        heqDec m hm
                    · exact ih _ _ _ _ _ _ _ heqRec p d hpd m hm
                · split at h
                  · rename_i newState heqDValid heqDNew
                    split at h
                    · simp only [Option.some.injEq] at h
                      subst h
                      simp only [decisionsWithPre] at hpd
                      rcases List.mem_cons.mp hpd with hpd | hpd
                      · have hd := congrArg Prod.snd hpd
                        dsimp at hd
                        rw [hd] at hm
                        exact absurd hm (by simp)
                      · exact absurd hpd (List.not_mem_nil _)
                    · split at h
                      · exact absurd h (by simp)
                      · rename_i rest heqRec
                        simp only [Option.some.injEq] at h
                        subst h
                        simp only [decisionsWithPre] at hpd
                        rcases List.mem_cons.mp hpd with hpd | hpd
                        · have hd := congrArg Prod.snd hpd
                          dsimp at hd
                          rw [hd] at hm
                          exact absurd hm (by simp)
                        · exact ih _ _ _ _ _ _ _ heqRec p d hpd m hm
                  · simp only [Option.some.injEq] at h
                    subst h
                    simp [decisionsWithPre] at hpd
              · split at h
                · rename_i newState heqDValid heqDNew
                  split at h
                  · simp only [Option.some.injEq] at h
                    subst h
                    simp only [decisionsWithPre] at hpd
                    rcases List.mem_cons.mp hpd with hpd | hpd
                    · have hp := congrArg Prod.fst hpd
                      have hd := congrArg Prod.snd hpd
                      dsimp at hp hd
                      rw [hp]
                      rw [hd] at hm
                      exact getAIDecision_not_pointless s sp ss w c rm rng decision rng1
                        heqDec m hm
                    · exact absurd hpd (List.not_mem_nil _)
                  · split at h
                    · exact absurd h (by simp)
                    · rename_i rest heqRec
                      simp only [Option.some.injEq] at h
                      subst h
                      simp only [decisionsWithPre] at hpd
                      rcases List.mem_cons.mp hpd with hpd | hpd
                      · have hp := congrArg Prod.fst hpd
                        have hd := congrArg Prod.snd hpd
                        dsimp at hp hd
                        rw [hp]
                        rw [hd] at hm
                        exact getAIDecision_not_pointless s sp ss w c rm rng decision rng1
                          heqDec m hm
                      · exact ih _ _ _ _ _ _ _ heqRec p d hpd m hm
                · simp only [Option.some.injEq] at h
                  subst h
                  simp [decisionsWithPre] at hpd

/-! ### Concrete states used by the claim theorems -/

def card1 (su : Suit) (r : Nat) : Card :=
  { suit := su, rank := r, deck := .player1 }

def card2 (su : Suit) (r : Nat) : Card :=
  { suit := su, rank := r, deck := .player2 }

def emptyFoundations : List (List Card) := List.replicate 8 []

/-- Player 2's record for `exC1`: the plain deal of the second deck with the
first hand card (4 of diamonds) moved to the waste, so that the current
player's tableau card 3 of diamonds has an attack destination. -/
def p2C1 : PlayerState :=
  let base := dealPlayerCards (createDeck .player2)
  { base with waste := [card2 .diamonds 4], hand := base.hand.drop 1 }

/-- A full 104-card state in which player 1 can attack player 2's waste:
player 1's tableau pile 3 is the singleton `[3 of diamonds]` and player 2's
waste top is the 4 of diamonds. -/
def exC1 : GameState :=
  { player1 := dealPlayerCards (createDeck .player1)
    player2 := p2C1
    foundations := emptyFoundations
    currentTurn := .player1
    turnPhase := .playing
    moveCount := 0
    winner := none
    seed := 0 }

/-- The attack move enumerated by `getValidMoves exC1`. -/
def mC1 : Move :=
  { fromLoc := { type := .tableau, owner := some .player1, index := some 3 }
    toLoc := { type := .waste, owner := some .player2 }
    card := card1 .diamonds 3 }

/-- Player 1's record for `exC2`: hand arranged so the next drawn card is
the ace of spades, and no tableau top of either player accepts it. -/
def p1C2 : PlayerState :=
  { reserve := (createDeck .player1).take 12
    waste := []
    tableau := [[card1 .hearts 13], [card1 .diamonds 1], [card1 .diamonds 3], [card1 .diamonds 4]]
    hand :=
      [card1 .diamonds 2] ++
        ((List.range 9).map fun r => card1 .diamonds (r + 5)) ++
        ((List.range 13).map fun r => card1 .clubs (r + 1)) ++
        ((List.range 12).map fun r => card1 .spades (r + 2)) ++
        [card1 .spades 1]
    drawnCard := none }

def p2C2 : PlayerState :=
  { reserve := (createDeck .player2).take 12
    waste := []
    tableau := [[card2 .hearts 13], [card2 .diamonds 1], [card2 .diamonds 3], [card2 .diamonds 4]]
    hand :=
      [card2 .diamonds 2] ++
        ((List.range 9).map fun r => card2 .diamonds (r + 5)) ++
        ((List.range 13).map fun r => card2 .clubs (r + 1)) ++
        ((List.range 12).map fun r => card2 .spades (r + 2)) ++
        [card2 .spades 1]
    drawnCard := none }

/-- A full 104-card state where the next card drawn from hand is the ace of
spades: it has a legal foundation destination (foundations 3 and 7 are the
spade foundations and are empty) but no tableau destination. -/
def exC2 : GameState :=
  { player1 := p1C2
    player2 := p2C2
    foundations := emptyFoundations
    currentTurn := .player1
    turnPhase := .playing
    moveCount := 0
    winner := none
    seed := 0 }

/-- A state whose phase is `ended` (as after hitting the move limit) but in
which `getValidMoves` still enumerates moves — e.g. the ace of diamonds on
top of player 1's tableau pile 1 can go to foundation 1. -/
def exC3 : GameState :=
  { player1 := dealPlayerCards (createDeck .player1)
    player2 := dealPlayerCards (createDeck .player2)
    foundations := emptyFoundations
    currentTurn := .player1
    turnPhase := .ended
    moveCount := 1000
    winner := none
    seed := 0 }

/-- The foundation play available in `exC3` despite the ended phase. -/
def mC3 : Move :=
  { fromLoc := { type := .tableau, owner := some .player1, index := some 1 }
    toLoc := { type := .foundation, index := some 1 }
    card := card1 .diamonds 1 }

/-- A move that is not in `getValidMoves exC3` (hand cards are never
playable directly). -/
def mC3junk : Move :=
  { fromLoc := { type := .hand, owner := some .player1 }
    toLoc := { type := .hand, owner := some .player1 }
    card := card1 .hearts 1 }

/-- State for the C9 witness: current player's hand is empty and the waste
is `[2 of spades, 5 of hearts, 9 of clubs]` (top: 9 of clubs). -/
def exC9 : GameState :=
  { player1 :=
      { reserve := [card1 .hearts 1]
        waste := [card1 .spades 2, card1 .hearts 5, card1 .clubs 9]
        tableau := [[], [], [], []]
        hand := []
        drawnCard := none }
    player2 :=
      { reserve := [card2 .hearts 1]
        waste := []
        tableau := [[], [], [], []]
        hand := [card2 .spades 13]
        drawnCard := none }
    foundations := emptyFoundations
    currentTurn := .player1
    turnPhase := .playing
    moveCount := 0
    winner := none
    seed := 0 }

/-- State for the C9 empty-empty failure case. -/
def exC9empty : GameState :=
  { exC9 with
    player1 :=
      { reserve := [card1 .hearts 1]
        waste := []
        tableau := [[], [], [], []]
        hand := []
        drawnCard := none } }

/-- A state in which the engine enumerates a pointless shuffle: player 1's
tableau pile 0 is the singleton `[5 of clubs]` and tableau pile 1 is empty
(an empty tableau accepts any card). -/
def exC7 : GameState :=
  { player1 :=
      { reserve := []
        waste := []
        tableau := [[card1 .clubs 5], [], [], []]
        hand := [card1 .hearts 2]
        drawnCard := none }
    player2 :=
      { reserve := [card2 .hearts 1]
        waste := []
        tableau := [[], [], [], []]
        hand := []
        drawnCard := none }
    foundations := emptyFoundations
    currentTurn := .player1
    turnPhase := .playing
    moveCount := 0
    winner := none
    seed := 0 }

/-- The singleton-to-empty tableau move the engine enumerates in `exC7`. -/
def mC7 : Move :=
  { fromLoc := { type := .tableau, owner := some .player1, index := some 0 }
    toLoc := { type := .tableau, owner := some .player1, index := some 1 }
    card := card1 .clubs 5 }

/-- State for the C7 witness: player 1's only accessible card is the ace of
hearts on the reserve; playing it to the foundation wins immediately, so
the computed turn is a single move step. -/
def exW : GameState :=
  { player1 :=
      { reserve := [card1 .hearts 1]
        waste := []
        tableau := [[], [], [], []]
        hand := []
        drawnCard := none }
    player2 :=
      { reserve := [card2 .spades 2]
        waste := []
        tableau := [[], [], [], []]
        hand := [card2 .diamonds 5]
        drawnCard := none }
    foundations := emptyFoundations
    currentTurn := .player1
    turnPhase := .playing
    moveCount := 0
    winner := none
    seed := 0 }

/-- A concrete config for the C7 witness (no exploration, no look-ahead). -/
def exCfg : AIConfig :=
  { explorationRate := 0
    shufflePenalty := 50
    patternMemory := 10
    lookAheadDepth := 0
    lookAheadFoundationBonus := 30
    lookAheadEmptyBonus := 20
    lookAheadAttackBonus := 15
    lookAheadBranchFactor := 4 }

/-- A state for C4 on which the AI turn is a pure draw storm.  Player 1 has
no board move (empty reserve and all-empty tableaus give `getValidMoves`
nothing to enumerate), but every drawn card is playable on an empty own
tableau, so `drawFromHand` never reports `turnEnded`.  The loop therefore
emits one uncounted draw step per iteration — its `moveCount < 100` cap
counts only applied moves — and only the engine's global `MAX_MOVES = 1000`
limit stops the turn.  Starting from `moveCount = 895` the turn runs for
105 steps, already past the claimed 100-step cap. -/
def exC4 : GameState :=
  { player1 :=
      { reserve := []
        waste := []
        tableau := [[], [], [], []]
        hand := [card1 .clubs 13]
        drawnCard := none }
    player2 :=
      { reserve := [card2 .hearts 2]
        waste := []
        tableau := [[], [], [], []]
        hand := []
        drawnCard := none }
    foundations := emptyFoundations
    currentTurn := .player1
    turnPhase := .playing
    moveCount := 895
    winner := none
    seed := 0 }

/-! ### C1 -/

/-- C1: evaluation of the code at the failing input.  The state `exC1` holds
the full population of 104 cards and the attack move `mC1` is enumerated by
`getValidMoves`, yet `applyMove` returns a "valid" result whose new state
has only 103 cards: the destination switch of `applyMove` has no case for
`waste`/`reserve` destinations, so the attacked card vanishes and the
destination pile still has its old top instead of `mC1.card`. -/
theorem c1_attack_move_loses_card :
    totalCards exC1 = 104 ∧
    mC1 ∈ getValidMoves exC1 ∧
    (applyMove exC1 mC1).valid = true ∧
    ((applyMove exC1 mC1).newState.map totalCards) = some 103 ∧
    ((applyMove exC1 mC1).newState.map fun ns => ns.player2.waste) = some [card2 .diamonds 4] := by
  refine ⟨by decide, by decide, by decide, by decide, by decide⟩

/-! ### C2 -/

/-- C2: evaluation of the code at the failing input.  Drawing from hand in
`exC2` produces the ace of spades; the engine's own legality predicate
`canPlayOnFoundation` accepts it on the empty spade foundation (index 3),
so by the spec the turn should continue — but `drawFromHand` reports
`turnEnded = true` and hands the turn to the opponent, because its helper
`getMovesForCard` calls `canPlayOnFoundation` without the foundation index
(making the required suit hearts) and never checks attack destinations. -/
theorem c2_unplayable_draw_divergence :
    totalCards exC2 = 104 ∧
    (drawFromHand exC2).valid = true ∧
    (drawFromHand exC2).turnEnded = some true ∧
    ((drawFromHand exC2).newState.map fun ns => ns.currentTurn) = some .player2 ∧
    ((drawFromHand exC2).newState.map fun ns => ns.player1.waste) = some [card1 .spades 1] ∧
    canPlayOnFoundation (card1 .spades 1) [] 3 = true := by
  refine ⟨by decide, by decide, by decide, by decide, by decide, by decide⟩

/-! ### C3 -/

/-- C3 counterexample: in the ended-phase state `exC3` the move `mC3` is
still applied successfully — `applyMove` returns `valid = true` with a new
state — contradicting the claim that every move on an ended state fails
with `InvalidMove`. `getValidMoves` and `isValidMove` never read
`turnPhase`. -/
theorem c3_counterexample :
    exC3.turnPhase = .ended ∧
    (applyMove exC3 mC3).valid = true ∧
    (applyMove exC3 mC3).newState ≠ none := by
  refine ⟨by decide, by decide, by decide⟩

/-- C3 (amended): for every state — whatever its `turnPhase`, which is
never consulted — `applyMove` returns the `Invalid move` failure (`valid =
false`, reason `Invalid move`, no new state) iff the move matches no move
enumerated by `getValidMoves`.  So ended-ness by itself never makes
`applyMove` reject a move: an enumerated move is not phase-rejected — it
either applies (as in the counterexample `exC3`/`mC3`) or fails later with
the distinct reason `No card at source` when the source pop finds nothing
(e.g. an opponent-tableau source whose same-index pile of the *current*
player is empty, since `removeFromSource` ignores `move.from.owner`). -/
theorem c3_invalid_iff_not_enumerated (s : GameState) (m : Move) :
    applyMove s m = { valid := false, reason := some ("Invalid move") } ↔
    (getValidMoves s).any (fun v => moveMatches v m) = false := by
  constructor
  · intro h
    by_contra hv
    rw [Bool.not_eq_false] at hv
    have hval : isValidMove s m = { valid := true } := by
      unfold isValidMove
      rw [hv]
      simp
    unfold applyMove at h
    rw [hval] at h
    simp only [Bool.not_true, Bool.false_eq_true, if_false] at h
    split at h
    · exact absurd h (by decide)
    · simp at h
  · intro h
    simp only [applyMove, isValidMove, h]
    simp

/-- Witness for the C3 amended theorem at a concrete ended-phase state and
a non-enumerated move. -/
theorem c3_invalid_iff_not_enumerated_witness :
    applyMove exC3 mC3junk = { valid := false, reason := some ("Invalid move") } :=
  (c3_invalid_iff_not_enumerated exC3 mC3junk).mpr (by decide)

/-! ### C4 -/

set_option maxRecDepth 100000 in
/-- C4: the per-turn safety cap does not bound the number of emitted steps.
On `exC4` the loop of `computeAITurn` emits 105 steps in a single turn —
more than the 100-operation cap `MAX_MOVES_PER_TURN` the claim says bounds
the sequence.  Every step is a draw decision, and the loop counter that the
cap is compared against counts only applied moves, so draw steps are
emitted uncounted until the engine's global 1000-move limit ends the game. -/
theorem c4_draw_steps_bypass_cap :
    ((computeAITurn exC4 DEFAULT_WEIGHTS DEFAULT_AI_CONFIG []).map List.length) = some 105 ∧
    MAX_MOVES_PER_TURN < 105 := by
  exact ⟨by with_unfolding_all rfl, by decide⟩

/-! ### C9 -/

/-- C9: when the current player's hand is empty, `drawFromHand` recycles —
the hand becomes the reversed waste and the waste is emptied — and then the
new top of hand (the bottom card of the old waste) is popped back onto the
waste as the drawn card; when hand and waste are both empty it fails with
the `No cards in hand or waste` reason (the `NoCardsToDraw` error of the
spec) and no new state. -/
theorem c9_recycle_and_empty_failure (s : GameState)
    (h : (getPlayerState s s.currentTurn).hand = []) :
    ((getPlayerState s s.currentTurn).waste = [] →
      drawFromHand s = { valid := false, reason := some ("No cards in hand or waste") }) ∧
    (∀ w ws, (getPlayerState s s.currentTurn).waste = w :: ws →
      (drawFromHand s).valid = true ∧
      ((drawFromHand s).newState.map fun ns =>
          ((getPlayerState ns s.currentTurn).hand, (getPlayerState ns s.currentTurn).waste)) =
        some (((w :: ws).reverse).dropLast, [w])) := by
  obtain ⟨p1, p2, f, ct, tp, mc, w0, sd⟩ := s
  obtain ⟨p1r, p1w, p1t, p1h, p1d⟩ := p1
  obtain ⟨p2r, p2w, p2t, p2h, p2d⟩ := p2
  cases ct
  case player1 =>
    simp only [getPlayerState] at h ⊢
    subst h
    constructor
    · intro hw
      subst hw
      rfl
    · intro w ws hw
      subst hw
      simp only [drawFromHand, cloneState, clonePlayerState, setPlayerState, getPlayerState,
        List.length_nil, List.length_cons, List.getLast?_reverse, List.head?]
      norm_num
      split <;> (try split) <;> (try split) <;> simp
  case player2 =>
    simp only [getPlayerState] at h ⊢
    subst h
    constructor
    · intro hw
      subst hw
      rfl
    · intro w ws hw
      subst hw
      simp only [drawFromHand, cloneState, clonePlayerState, setPlayerState, getPlayerState,
        List.length_nil, List.length_cons, List.getLast?_reverse, List.head?]
      norm_num
      split <;> (try split) <;> (try split) <;> simp

/-! ### C7 -/

/-- C7: no step of a computed AI turn is a move decision that takes the
only card of a tableau pile to an empty tableau pile (evaluated in the
state the decision was made in, drawn card held or not) — both the cycle
filters and the draw-avoidance fallback sit behind the unconditional
pointless-shuffle filter; yet `getValidMoves` does enumerate such moves, as
the concrete state `exC7` shows. -/
theorem c7_no_pointless_shuffle :
    (∀ (s : GameState) (w : ScoreWeights) (c : AIConfig) (r : List String)
        (steps : List AITurnStep),
      computeAITurn s w c r = some steps →
      ∀ p d, (p, d) ∈ decisionsWithPre s steps → ∀ m, d.move = some m →
        isPointlessTableauShuffle p m = false) ∧
    (mC7 ∈ getValidMoves exC7 ∧ isPointlessTableauShuffle exC7 mC7 = true) := by
  constructor
  · intro s w c r steps h p d hpd m hm
    unfold computeAITurn at h
    exact computeAITurnLoop_not_pointless w c s.currentTurn aiTurnFuel s _ _ r 0 _ _ h
      p d hpd m hm
  · exact ⟨by decide, by decide⟩

/-- The steps of the single-move turn computed in `exW`. -/
def c7Steps : List AITurnStep :=
  (computeAITurn exW DEFAULT_WEIGHTS exCfg []).getD []

def c7FallbackStep : AITurnStep :=
  { state := exW, decision := { dtype := .draw, reasoning := "" } }

def c7HeadDecision : AIDecision :=
  (c7Steps.headD c7FallbackStep).decision

def c7HeadMove : Move :=
  c7HeadDecision.move.getD mC7

/-- Witness for C7: the first (and only) decision of the computed turn in
`exW` is a move, and it is not a pointless shuffle. -/
theorem c7_no_pointless_shuffle_witness :
    isPointlessTableauShuffle exW c7HeadMove = false := by
  have h1 : computeAITurn exW DEFAULT_WEIGHTS exCfg [] = some c7Steps := by
    with_unfolding_all rfl
  have h2 : (exW, c7HeadDecision) ∈ decisionsWithPre exW c7Steps := by
    have hval : decisionsWithPre exW c7Steps = [(exW, c7HeadDecision)] := by
      with_unfolding_all rfl
    rw [hval]
    exact List.mem_cons_self _ _
  have h3 : c7HeadDecision.move = some c7HeadMove := by
    with_unfolding_all rfl
  exact c7_no_pointless_shuffle.1 exW DEFAULT_WEIGHTS exCfg [] c7Steps h1 exW
    c7HeadDecision h2 c7HeadMove h3

/-! ### C8 -/

/-- C8: the decision maker is deterministic in its four inputs — two
invocations on equal state, weights, config, and recent-pattern list return
identical step sequences — and its only internal randomness is the LCG
whose seed is `state.seed + state.moveCount`, as the second conjunct
exhibits: the whole computation equals the turn loop run with that rng
seed. -/
theorem c8_deterministic_seeded :
    (∀ (s1 s2 : GameState) (w1 w2 : ScoreWeights) (c1 c2 : AIConfig) (r1 r2 : List String),
      s1 = s2 → w1 = w2 → c1 = c2 → r1 = r2 →
      computeAITurn s1 w1 c1 r1 = computeAITurn s2 w2 c2 r2) ∧
    (∀ (s : GameState) (w : ScoreWeights) (c : AIConfig) (r : List String),
      computeAITurn s w c r =
        computeAITurnLoop w c s.currentTurn aiTurnFuel s
          (recordCardPositions s .player2 (recordCardPositions s .player1 []))
          [hashGameState s] r 0 (s.seed + s.moveCount)) := by
  constructor
  · intro s1 s2 w1 w2 c1 c2 r1 r2 hs hw hc hr
    rw [hs, hw, hc, hr]
  · intro s w c r
    rfl

/-- Witness for C8 at a concrete state, discharging the four equality
hypotheses with `rfl`. -/
theorem c8_deterministic_seeded_witness :
    computeAITurn
        { player1 := { reserve := [], waste := [], tableau := [], hand := [] }
          player2 := { reserve := [], waste := [], tableau := [], hand := [] }
          foundations := [], currentTurn := .player1, turnPhase := .playing
          moveCount := 0, winner := none, seed := 0 }
        DEFAULT_WEIGHTS DEFAULT_AI_CONFIG [] =
      computeAITurn
        { player1 := { reserve := [], waste := [], tableau := [], hand := [] }
          player2 := { reserve := [], waste := [], tableau := [], hand := [] }
          foundations := [], currentTurn := .player1, turnPhase := .playing
          moveCount := 0, winner := none, seed := 0 }
        DEFAULT_WEIGHTS DEFAULT_AI_CONFIG [] :=
  c8_deterministic_seeded.1 _ _ _ _ _ _ _ _ rfl rfl rfl rfl

/-! ### C5 -/

/-- C5 counterexample: a checkpoint with `version = 2` is not surfaced as a
fatal startup error — the trainer silently chooses the fresh-start branch
(`StartMode` has no error alternative at all; the claim says training must
not proceed by discarding the checkpoint and starting fresh, which is
exactly what happens). -/
theorem c5_counterexample :
    resumeDecision (some { version := 2, currentGeneration := 7 }) = .fresh := by
  decide

/-- C5 (amended): at startup an existing checkpoint is resumed from iff its
version equals 1; a checkpoint with any other version is silently ignored
and training starts fresh (no error is raised). -/
theorem c5_resume_iff_version_one (cp : Checkpoint) :
    (resumeDecision (some cp) = .resume cp ↔ cp.version = 1) ∧
    (cp.version ≠ 1 → resumeDecision (some cp) = .fresh) := by
  constructor
  · constructor
    · intro h
      by_contra hv
      simp [resumeDecision, hv] at h
    · intro hv
      simp [resumeDecision, hv]
  · intro hv
    simp [resumeDecision, hv]

/-- Witness for the C5 amended theorem at concrete checkpoints of versions
1 and 2. -/
theorem c5_resume_iff_version_one_witness :
    resumeDecision (some { version := 1, currentGeneration := 3 }) =
      .resume { version := 1, currentGeneration := 3 } ∧
    resumeDecision (some { version := 2, currentGeneration := 3 }) = .fresh :=
  ⟨(c5_resume_iff_version_one { version := 1, currentGeneration := 3 }).1.mpr (by decide),
    (c5_resume_iff_version_one { version := 2, currentGeneration := 3 }).2 (by decide)⟩

/-! ### C6 -/

/-- C6: evaluation of the code at the failing input.  `createRandomIndividual`
iterates over all eighteen `ScoreWeights` keys but `WEIGHT_BOUNDS` has
entries for only fifteen of them, so the iteration reaches
`DRAW_AVOIDANCE_EMPTY_BONUS`, reads the bounds of `undefined`, and throws —
for every possible random stream.  `mutate` throws whenever the mutation
rate fires on one of the three missing keys (here: a stream that always
fires with the default rate 0.3). -/
theorem c6_weight_bounds_missing :
    (∀ rand : Nat → ℚ, createRandomIndividual rand DEFAULT_WEIGHTS = none) ∧
    mutate (fun _ => 0) DEFAULT_WEIGHTS (mkRat 3 10) (mkRat 1 4) = none ∧
    WEIGHT_BOUNDS .DRAW_AVOIDANCE_EMPTY_BONUS = none ∧
    WEIGHT_BOUNDS .STACK_HEIGHT_BONUS = none ∧
    WEIGHT_BOUNDS .SPREAD_PENALTY = none := by
  refine ⟨fun rand => ?_, by with_unfolding_all rfl, rfl, rfl, rfl⟩
  rfl

/-- Witness instantiating the universally quantified part of the C6 theorem
at a concrete random stream. -/
theorem c6_weight_bounds_missing_witness :
    createRandomIndividual (fun _ => 1 / 2) DEFAULT_WEIGHTS = none :=
  c6_weight_bounds_missing.1 (fun _ => 1 / 2)

/-! ### C10 -/

theorem splitOnChar_append_sep (sep : Char) (a b : List Char) (h : sep ∉ a) :
    splitOnChar sep (a ++ sep :: b) = a :: splitOnChar sep b := by
  induction a with
  | nil => simp [splitOnChar]
  | cons c cs ih =>
      have hc : ¬(c = sep) := fun hceq => h (hceq ▸ List.mem_cons_self c cs)
      have hcs : sep ∉ cs := fun hm => h (List.mem_cons_of_mem c hm)
      simp [splitOnChar, hc, ih hcs]

theorem splitOnChar_of_not_mem (sep : Char) (b : List Char) (h : sep ∉ b) :
    splitOnChar sep b = [b] := by
  induction b with
  | nil => rfl
  | cons c cs ih =>
      have hc : ¬(c = sep) := fun hceq => h (hceq ▸ List.mem_cons_self c cs)
      have hcs : sep ∉ cs := fun hm => h (List.mem_cons_of_mem c hm)
      simp [splitOnChar, hc, ih hcs]

theorem codeToCard_cardToCode (c : Card) (h1 : 1 ≤ c.rank) (h2 : c.rank ≤ 13) :
    codeToCard (cardToCode c) = some c := by
  obtain ⟨su, r, dk⟩ := c
  have h1' : 1 ≤ r := h1
  have h2' : r ≤ 13 := h2
  interval_cases r <;> cases su <;> cases dk <;> decide

theorem colon_not_mem_cardToCode (c : Card) (h1 : 1 ≤ c.rank) (h2 : c.rank ≤ 13) :
    ':' ∉ cardToCode c := by
  obtain ⟨su, r, dk⟩ := c
  have h1' : 1 ≤ r := h1
  have h2' : r ≤ 13 := h2
  interval_cases r <;> cases su <;> cases dk <;> decide

theorem codeToPile_pileToCode (loc : PileLocation) (h : wellFormedLoc loc = true) :
    codeToPile (pileToCode loc) = some loc ∧ ':' ∉ pileToCode loc ∧ '-' ∉ pileToCode loc := by
  obtain ⟨t, o, i⟩ := loc
  cases t <;> simp only [wellFormedLoc, Bool.and_eq_true, beq_iff_eq, Option.isSome_iff_exists] at h
  case reserve | waste | hand | drawn =>
    obtain ⟨⟨p, hp⟩, hi⟩ := h
    subst hp
    subst hi
    cases p <;> exact ⟨by decide, by decide, by decide⟩
  case tableau =>
    obtain ⟨⟨p, hp⟩, hi⟩ := h
    subst hp
    rcases hmi : i with _ | iv
    · rw [hmi] at hi
      exact absurd hi (by simp)
    · rw [hmi] at hi
      simp only at hi
      have hiv : iv < 4 := by exact_mod_cast of_decide_eq_true (by simpa using hi)
      interval_cases iv <;> cases p <;> exact ⟨by decide, by decide, by decide⟩
  case foundation =>
    obtain ⟨hp, hi⟩ := h
    subst hp
    rcases hmi : i with _ | iv
    · rw [hmi] at hi
      exact absurd hi (by simp)
    · rw [hmi] at hi
      simp only at hi
      have hiv : iv < 8 := by exact_mod_cast of_decide_eq_true (by simpa using hi)
      interval_cases iv <;> exact ⟨by decide, by decide, by decide⟩

/-- C10: the move-notation round trip.  For every move whose card has a
valid rank and whose locations carry exactly the owner/index fields their
kind requires (tableau index 0-3, foundation index 0-7), parsing the
printed notation returns exactly the move. -/
theorem c10_move_code_roundtrip (m : Move) (h1 : 1 ≤ m.card.rank) (h2 : m.card.rank ≤ 13)
    (h3 : wellFormedLoc m.fromLoc = true) (h4 : wellFormedLoc m.toLoc = true) :
    codeToMove (moveToCode m) = some m := by
  obtain ⟨floc, tloc, card⟩ := m
  have hcard := codeToCard_cardToCode card h1 h2
  have hcolon := colon_not_mem_cardToCode card h1 h2
  obtain ⟨hf, hfc, hfd⟩ := codeToPile_pileToCode floc h3
  obtain ⟨ht, htc, htd⟩ := codeToPile_pileToCode tloc h4
  have hnm1 : ':' ∉ pileToCode floc ++ '-' :: pileToCode tloc := by
    intro hm
    rcases List.mem_append.mp hm with hm | hm
    · exact hfc hm
    · rcases List.mem_cons.mp hm with hm | hm
      · exact absurd hm (by decide)
      · exact htc hm
  have hshape : moveToCode { fromLoc := floc, toLoc := tloc, card := card } =
      cardToCode card ++ ':' :: (pileToCode floc ++ '-' :: pileToCode tloc) := by
    simp [moveToCode]
  rw [hshape]
  simp only [codeToMove, splitOnChar_append_sep ':' _ _ hcolon,
    splitOnChar_of_not_mem ':' _ hnm1, splitOnChar_append_sep '-' _ _ hfd,
    splitOnChar_of_not_mem '-' _ htd, hcard, hf, ht]

/-- A concrete move for the C10 witness. -/
def mC10 : Move :=
  { fromLoc := { type := .reserve, owner := some .player1 }
    toLoc := { type := .foundation, index := some 2 }
    card := card1 .clubs 1 }

/-- Witness for C10 at a concrete move. -/
theorem c10_move_code_roundtrip_witness :
    (1 ≤ mC10.card.rank ∧ mC10.card.rank ≤ 13 ∧ wellFormedLoc mC10.fromLoc = true ∧
      wellFormedLoc mC10.toLoc = true) ∧
    codeToMove (moveToCode mC10) = some mC10 :=
  ⟨⟨by decide, by decide, by decide, by decide⟩,
    c10_move_code_roundtrip mC10 (by decide) (by decide) (by decide) (by decide)⟩

/-- Witness for C9 at the spec's own example: waste `[2 of spades,
5 of hearts, 9 of clubs]` is reversed into the hand, and the 2 of spades
(the old bottom of the waste) ends up as the only waste card. -/
theorem c9_recycle_witness :
    (drawFromHand exC9).valid = true ∧
    ((drawFromHand exC9).newState.map fun ns =>
        ((getPlayerState ns .player1).hand, (getPlayerState ns .player1).waste)) =
      some ([card1 .clubs 9, card1 .hearts 5], [card1 .spades 2]) := by
  have h :=
    (c9_recycle_and_empty_failure exC9 (by decide)).2 (card1 .spades 2)
      [card1 .hearts 5, card1 .clubs 9] (by decide)
  exact ⟨h.1, by simpa using h.2⟩

end RussianBank
